import Mathlib

/-!
Verification of the IPTV-player repository (Meesz/IPTV-player).

This file gives a shallow embedding, in Lean 4, of the data model and the
operations of the Python sources that the specification talks about:

* `src/models/epg.py`          — `Program`, `EPGData`, `EPG`
* `src/models/playlist.py`     — `Channel`, `Playlist`
* `src/models/channel.py`      — the parser-side `Channel`
* `src/controllers/epg_controller.py` — `EPGController`
* `src/utils/epg_parser.py`    — `EPGParser.parse_date`
* `src/utils/m3u_parser.py`    — `M3UParser.parse`, `_parse_channels`

Python conventions are modelled explicitly: dictionaries become
insertion-ordered association lists with unique keys, `list.sort` becomes
the stable `List.insertionSort`, `datetime` values become records of
numeric fields compared lexicographically (as CPython compares them), and
fallible operations return `Option`/`Except`.
-/

set_option maxHeartbeats 1000000

/-! ### Generic helpers: lexicographic comparison of numeric lists

CPython compares tuples and strings lexicographically; both reduce to a
lexicographic comparison of lists of naturals (field values, code points).
-/

/-- Lexicographic comparison of two lists of naturals, as Python compares
tuples/strings of numbers: a strict prefix is smaller. -/
def natListCompare : List Nat → List Nat → Ordering
  | [], [] => .eq
  | [], _ :: _ => .lt
  | _ :: _, [] => .gt
  | a :: as, b :: bs =>
    match compare a b with
    | .lt => .lt
    | .gt => .gt
    | .eq => natListCompare as bs

theorem natListCompare_eq_iff : ∀ {a b : List Nat}, natListCompare a b = .eq ↔ a = b
  | [], [] => by simp [natListCompare]
  | [], _ :: _ => by simp [natListCompare]
  | _ :: _, [] => by simp [natListCompare]
  | a :: as, b :: bs => by
    rcases h : compare a b with _ | _ | _
    · simp only [natListCompare, h]
      constructor
      · intro hc; cases hc
      · intro hc
        injection hc with h1 _
        exact absurd h1 (Nat.ne_of_lt (Nat.compare_eq_lt.mp h))
    · obtain rfl : a = b := Nat.compare_eq_eq.mp h
      simp only [natListCompare, h]
      rw [natListCompare_eq_iff]
      simp
    · simp only [natListCompare, h]
      constructor
      · intro hc; cases hc
      · intro hc
        injection hc with h1 _
        exact absurd h1.symm (Nat.ne_of_lt (Nat.compare_eq_gt.mp h))

theorem natListCompare_swap : ∀ (a b : List Nat),
    natListCompare b a = (natListCompare a b).swap
  | [], [] => by simp [natListCompare, Ordering.swap]
  | [], _ :: _ => by simp [natListCompare, Ordering.swap]
  | _ :: _, [] => by simp [natListCompare, Ordering.swap]
  | a :: as, b :: bs => by
    rcases Nat.lt_trichotomy a b with h | h | h
    · simp only [natListCompare, (Nat.compare_eq_lt).mpr h, (Nat.compare_eq_gt).mpr h]
      rfl
    · subst h
      simp only [natListCompare, (Nat.compare_eq_eq).mpr rfl]
      exact natListCompare_swap as bs
    · simp only [natListCompare, (Nat.compare_eq_gt).mpr h, (Nat.compare_eq_lt).mpr h]
      rfl

theorem natListCompare_lt_trans : ∀ {a b c : List Nat},
    natListCompare a b = .lt → natListCompare b c = .lt → natListCompare a c = .lt
  | [], [], _ :: _, _, _ => rfl
  | [], _ :: _, _ :: _, _, _ => rfl
  | [], [], [], h, _ => by simp [natListCompare] at h
  | [], _ :: _, [], _, h => by simp [natListCompare] at h
  | _ :: _, [], _, h, _ => by simp [natListCompare] at h
  | _ :: _, _ :: _, [], _, h => by simp [natListCompare] at h
  | a :: as, b :: bs, c :: cs, h₁, h₂ => by
    simp only [natListCompare] at h₁ h₂ ⊢
    rcases hab : compare a b with _ | _ | _ <;> rw [hab] at h₁ <;>
      rcases hbc : compare b c with _ | _ | _ <;> rw [hbc] at h₂ <;>
      simp only [] at h₁ h₂
    · rw [(Nat.compare_eq_lt).mpr
        (Nat.lt_trans (Nat.compare_eq_lt.mp hab) (Nat.compare_eq_lt.mp hbc))]
    · obtain rfl : b = c := Nat.compare_eq_eq.mp hbc
      rw [hab]
    · cases h₂
    · obtain rfl : a = b := Nat.compare_eq_eq.mp hab
      rw [hbc]
    · obtain rfl : a = b := Nat.compare_eq_eq.mp hab
      rw [hbc]
      exact natListCompare_lt_trans h₁ h₂
    · cases h₂
    · cases h₁
    · cases h₁
    · cases h₁

/-- `a` is at most `b` in the lexicographic order. -/
def natListLe (a b : List Nat) : Prop := natListCompare a b ≠ .gt

instance : DecidableRel natListLe := fun a b =>
  inferInstanceAs (Decidable (natListCompare a b ≠ .gt))

theorem natListLe_total (a b : List Nat) : natListLe a b ∨ natListLe b a := by
  unfold natListLe
  rw [natListCompare_swap a b]
  rcases natListCompare a b with _ | _ | _ <;> simp [Ordering.swap]

theorem natListLe_trans {a b c : List Nat} (h₁ : natListLe a b) (h₂ : natListLe b c) :
    natListLe a c := by
  unfold natListLe at *
  rcases hab : natListCompare a b with h' | h' | h' <;> rw [hab] at h₁
  · rcases hbc : natListCompare b c with h'' | h'' | h'' <;> rw [hbc] at h₂
    · rw [natListCompare_lt_trans hab hbc]; simp
    · obtain rfl : b = c := natListCompare_eq_iff.mp hbc
      rw [hab]; simp
    · exact absurd rfl h₂
  · obtain rfl : a = b := natListCompare_eq_iff.mp hab
    exact h₂
  · exact absurd rfl h₁

/-! ### Python `datetime` values

CPython compares `datetime.datetime` values lexicographically on
`(year, month, day, hour, minute, second, microsecond)`; the repository
only ever constructs whole-second datetimes, so the microsecond field is
omitted. -/

/-- A naive `datetime.datetime` value (no timezone, whole seconds). -/
structure PyDateTime where
  year : Nat
  month : Nat
  day : Nat
  hour : Nat
  minute : Nat
  second : Nat
  deriving DecidableEq, Repr

/-- The comparison key of a datetime, in CPython's comparison order. -/
def PyDateTime.fields (d : PyDateTime) : List Nat :=
  [d.year, d.month, d.day, d.hour, d.minute, d.second]

/-- `a.cmp b` is the result of CPython's three-way datetime comparison. -/
def PyDateTime.cmp (a b : PyDateTime) : Ordering :=
  natListCompare a.fields b.fields

/-- Python `a <= b` on datetimes. -/
def PyDateTime.leb (a b : PyDateTime) : Bool :=
  match a.cmp b with
  | .gt => false
  | _ => true

/-- Python `a < b` on datetimes. -/
def PyDateTime.ltb (a b : PyDateTime) : Bool :=
  match a.cmp b with
  | .lt => true
  | _ => false

/-! ### Python `dict` as an insertion-ordered association list -/

/-- `d[k]`, or `d.get(k)`: the value stored at key `k`. -/
def dget {K V : Type} [DecidableEq K] (d : List (K × V)) (k : K) : Option V :=
  match d with
  | [] => none
  | (k', v) :: rest => if k' = k then some v else dget rest k

/-- `d[k] = v`: overwrite in place if the key exists, else append. -/
def dset {K V : Type} [DecidableEq K] (d : List (K × V)) (k : K) (v : V) : List (K × V) :=
  match d with
  | [] => [(k, v)]
  | (k', v') :: rest => if k' = k then (k, v) :: rest else (k', v') :: dset rest k v

/-- Mutate the value stored at key `k` in place (no-op when absent). -/
def dmodify {K V : Type} [DecidableEq K] (d : List (K × V)) (k : K) (f : V → V) :
    List (K × V) :=
  match d with
  | [] => []
  | (k', v') :: rest => if k' = k then (k', f v') :: rest else (k', v') :: dmodify rest k f

/-! ### `src/models/epg.py` — `Program`, `EPGData`, `EPG` -/

/-- `Program` dataclass of `src/models/epg.py`. -/
structure Program where
  title : String
  start_time : PyDateTime
  end_time : PyDateTime
  description : String := ""
  category : String := ""
  deriving DecidableEq, Repr

/-- `EPGData` dataclass of `src/models/epg.py`: the schedule of one channel. -/
structure EPGData where
  channel_id : String
  programs : List Program
  deriving DecidableEq, Repr

/-- `EPGData.get_current_program`: scan `programs` in stored order and
return the first with `start_time <= current_time < end_time`. -/
def EPGData.get_current_program (d : EPGData) (current_time : PyDateTime) : Option Program :=
  d.programs.find? (fun p => p.start_time.leb current_time && current_time.ltb p.end_time)

/-- The sort relation of `upcoming.sort(key=lambda p: p.start_time)`. -/
def Program.startLe (p q : Program) : Prop :=
  natListLe p.start_time.fields q.start_time.fields

instance : DecidableRel Program.startLe :=
  fun _ _ => inferInstanceAs (Decidable (natListCompare _ _ ≠ .gt))

instance : IsTotal Program Program.startLe :=
  ⟨fun _ _ => natListLe_total _ _⟩

instance : IsTrans Program Program.startLe :=
  ⟨fun _ _ _ => natListLe_trans⟩

/-- `EPGData.get_upcoming_programs`: filter the programs with
`start_time > current_time`, sort them (stably) ascending by `start_time`
(`list.sort` in CPython is a stable sort, modelled by `List.insertionSort`),
and keep the first `limit` (default 5). -/
def EPGData.get_upcoming_programs (d : EPGData) (current_time : PyDateTime)
    (limit : Nat := 5) : List Program :=
  (((d.programs.filter (fun p => current_time.ltb p.start_time)).insertionSort
    Program.startLe).take limit)

/-- The `EPG` class of `src/models/epg.py`. -/
structure EPG where
  _channels : List (String × EPGData) := []
  _programs_count : Nat := 0
  deriving DecidableEq, Repr

/-- `EPG.add_channel`: create an empty schedule if the id is new, then, when
`programs` is truthy (non-empty), extend the stored schedule. -/
def EPG.add_channel (e : EPG) (channel_id : String) (programs : List Program := []) : EPG :=
  let e1 : EPG :=
    if (dget e._channels channel_id).isSome then e
    else { e with _channels := dset e._channels channel_id ⟨channel_id, []⟩ }
  if programs.isEmpty then e1
  else
    { _channels := dmodify e1._channels channel_id
        (fun d => { d with programs := d.programs ++ programs }),
      _programs_count := e1._programs_count + programs.length }

/-- `EPG.add_program`: ensure the channel exists, then append one program. -/
def EPG.add_program (e : EPG) (channel_id : String) (program : Program) : EPG :=
  let e1 : EPG :=
    if (dget e._channels channel_id).isNone then e.add_channel channel_id else e
  { _channels := dmodify e1._channels channel_id
      (fun d => { d with programs := d.programs ++ [program] }),
    _programs_count := e1._programs_count + 1 }

/-- `EPG.get_channel_data`: `self._channels.get(channel_id)`. -/
def EPG.get_channel_data (e : EPG) (channel_id : String) : Option EPGData :=
  dget e._channels channel_id

/-- `EPG.get_current_program`: `None` for an unknown channel, else delegate. -/
def EPG.get_current_program (e : EPG) (channel_id : String) (reference_time : PyDateTime) :
    Option Program :=
  match e.get_channel_data channel_id with
  | none => none
  | some d => d.get_current_program reference_time

/-- `EPG.get_upcoming_programs`: `[]` for an unknown channel, else delegate. -/
def EPG.get_upcoming_programs (e : EPG) (channel_id : String) (reference_time : PyDateTime)
    (limit : Nat := 5) : List Program :=
  match e.get_channel_data channel_id with
  | none => []
  | some d => d.get_upcoming_programs reference_time limit

/-- `EPG.channels` property: the list of stored channel ids. -/
def EPG.channels (e : EPG) : List String :=
  e._channels.map Prod.fst

/-- `EPG.clear`. -/
def EPG.clear (_e : EPG) : EPG :=
  { _channels := [], _programs_count := 0 }

/-! ### Concrete EPG values used by the specification's scenarios -/

/-- The 12:00–13:00 programme of the specification's half-open example. -/
def noonProgram : Program :=
  { title := "Noon Show",
    start_time := ⟨2024, 5, 1, 12, 0, 0⟩,
    end_time := ⟨2024, 5, 1, 13, 0, 0⟩ }

/-- An EPG holding only the noon programme under channel id "bbc". -/
def noonEPG : EPG := EPG.add_program {} "bbc" noonProgram

/-- **C2.** `get_current_program(channel_id, t)` returns a program iff some
stored program of that channel satisfies `start <= t < end`; the returned
program is the earliest such program in stored insertion order; an unknown
`channel_id` yields `none`, not an error; and the interval is half-open:
the 12:00–13:00 programme is returned at 12:30 but not at 13:00. -/
theorem EPG_get_current_program_spec (e : EPG) (channel_id : String) (t : PyDateTime) :
    ((e.get_current_program channel_id t).isSome ↔
      ∃ d, e.get_channel_data channel_id = some d ∧
        ∃ p, p ∈ d.programs ∧ (p.start_time.leb t && t.ltb p.end_time) = true) ∧
    (∀ p, e.get_current_program channel_id t = some p →
      ∃ d l₁ l₂, e.get_channel_data channel_id = some d ∧
        d.programs = l₁ ++ p :: l₂ ∧
        (p.start_time.leb t && t.ltb p.end_time) = true ∧
        ∀ q ∈ l₁, (q.start_time.leb t && t.ltb q.end_time) = false) ∧
    (e.get_channel_data channel_id = none → e.get_current_program channel_id t = none) ∧
    noonEPG.get_current_program "bbc" ⟨2024, 5, 1, 12, 30, 0⟩ = some noonProgram ∧
    noonEPG.get_current_program "bbc" ⟨2024, 5, 1, 13, 0, 0⟩ = none := by
  refine ⟨?_, ?_, ?_, by decide, by decide⟩
  · rcases h : e.get_channel_data channel_id with _ | d
    · simp [EPG.get_current_program, h]
    · simp only [EPG.get_current_program, h, EPGData.get_current_program,
        List.find?_isSome, Option.some.injEq]
      constructor
      · rintro ⟨x, hx, hpx⟩; exact ⟨d, rfl, x, hx, hpx⟩
      · rintro ⟨d', hd', x, hx, hpx⟩
        subst hd'
        exact ⟨x, hx, hpx⟩
  · intro p hp
    rcases h : e.get_channel_data channel_id with _ | d
    · rw [EPG.get_current_program, h] at hp
      cases hp
    · rw [EPG.get_current_program, h] at hp
      obtain ⟨hpred, l₁, l₂, hsplit, hbefore⟩ := List.find?_eq_some.mp hp
      refine ⟨d, l₁, l₂, rfl, hsplit, hpred, fun q hq => ?_⟩
      have hb := hbefore q hq
      rwa [Bool.not_eq_true'] at hb
  · intro h
    rw [EPG.get_current_program, h]

/-- **C3 (amended).** `get_upcoming_programs(channel_id, t, n)` returns
exactly the channel's programs with `start > t`, ordered ascending by
`start` (non-strictly: programs sharing a start time may both appear),
truncated to the `n` earliest; an unknown `channel_id` yields `[]`. -/
theorem EPG_get_upcoming_programs_spec (e : EPG) (channel_id : String) (t : PyDateTime)
    (n : Nat) :
    (e.get_channel_data channel_id = none → e.get_upcoming_programs channel_id t n = []) ∧
    (∀ d, e.get_channel_data channel_id = some d →
      (∀ p ∈ e.get_upcoming_programs channel_id t n,
          p ∈ d.programs ∧ t.ltb p.start_time = true) ∧
      List.Sorted Program.startLe (e.get_upcoming_programs channel_id t n) ∧
      (e.get_upcoming_programs channel_id t n).length =
        min n (d.programs.filter (fun p => t.ltb p.start_time)).length ∧
      ((d.programs.filter (fun p => t.ltb p.start_time)).length ≤ n →
        (e.get_upcoming_programs channel_id t n).Perm
          (d.programs.filter (fun p => t.ltb p.start_time))) ∧
      (∀ p ∈ e.get_upcoming_programs channel_id t n,
        ∀ q ∈ d.programs.filter (fun p => t.ltb p.start_time),
          q ∉ e.get_upcoming_programs channel_id t n → Program.startLe p q)) := by
  constructor
  · intro h
    rw [EPG.get_upcoming_programs, h]
  · intro d h
    have hr : e.get_upcoming_programs channel_id t n =
        ((d.programs.filter (fun p => t.ltb p.start_time)).insertionSort
          Program.startLe).take n := by
      rw [EPG.get_upcoming_programs, h]
      rfl
    set flt := d.programs.filter (fun p => t.ltb p.start_time) with hflt
    set srt := flt.insertionSort Program.startLe with hsrt
    have hperm : srt.Perm flt := List.perm_insertionSort _ _
    have hsorted : List.Sorted Program.startLe srt := List.sorted_insertionSort _ _
    refine ⟨?_, ?_, ?_, ?_, ?_⟩
    · intro p hp
      rw [hr] at hp
      have hps : p ∈ srt := List.mem_of_mem_take hp
      have hpf : p ∈ flt := hperm.mem_iff.mp hps
      have := List.mem_filter.mp hpf
      exact ⟨this.1, this.2⟩
    · rw [hr]
      exact hsorted.sublist (List.take_sublist n srt)
    · rw [hr, List.length_take, hperm.length_eq]
    · intro hlen
      rw [hr, List.take_of_length_le]
      · exact hperm
      · rw [hperm.length_eq]; exact hlen
    · intro p hp q hq hqout
      rw [hr] at hp hqout
      have hqs : q ∈ srt := hperm.mem_iff.mpr hq
      have hqdrop : q ∈ srt.drop n := by
        rcases (List.mem_append.mp (by rw [List.take_append_drop n srt]; exact hqs)) with
          hcase | hcase
        · exact absurd hcase hqout
        · exact hcase
      have hpw := hsorted
      rw [← List.take_append_drop n srt] at hpw
      exact ((List.pairwise_append.mp hpw).2.2) p hp q hqdrop

/-- Two programmes that share a start time, for the C3 tie counterexample. -/
def tieProgramA : Program :=
  { title := "A", start_time := ⟨2024, 5, 1, 10, 0, 0⟩, end_time := ⟨2024, 5, 1, 11, 0, 0⟩ }

/-- Second programme with the same start time as `tieProgramA`. -/
def tieProgramB : Program :=
  { title := "B", start_time := ⟨2024, 5, 1, 10, 0, 0⟩, end_time := ⟨2024, 5, 1, 10, 30, 0⟩ }

/-- An EPG whose channel "c" stores two programmes with equal start times. -/
def tieEPG : EPG := (EPG.add_program {} "c" tieProgramA).add_program "c" tieProgramB

/-- **C3, counterexample to strictness.** With two stored programmes sharing
the same start time after `t`, `get_upcoming_programs` returns both, so the
output is not *strictly* ascending by start time: consecutive elements
compare equal, not `<`. -/
theorem EPG_get_upcoming_programs_not_strict :
    tieEPG.get_upcoming_programs "c" ⟨2024, 5, 1, 9, 0, 0⟩ 5 = [tieProgramA, tieProgramB] ∧
    tieProgramA.start_time = tieProgramB.start_time ∧
    tieProgramA.start_time.ltb tieProgramB.start_time = false := by
  refine ⟨by decide, by decide, by decide⟩

/-- Witness for `EPG_get_current_program_spec`: instantiates it on `noonEPG`,
discharging its hypotheses at concrete inputs. -/
theorem EPG_get_current_program_spec_witness :
    (∃ d l₁ l₂, noonEPG.get_channel_data "bbc" = some d ∧
      d.programs = l₁ ++ noonProgram :: l₂ ∧
      (noonProgram.start_time.leb ⟨2024, 5, 1, 12, 30, 0⟩ &&
        PyDateTime.ltb ⟨2024, 5, 1, 12, 30, 0⟩ noonProgram.end_time) = true ∧
      ∀ q ∈ l₁, (q.start_time.leb ⟨2024, 5, 1, 12, 30, 0⟩ &&
        PyDateTime.ltb ⟨2024, 5, 1, 12, 30, 0⟩ q.end_time) = false) ∧
    noonEPG.get_current_program "zzz" ⟨2024, 5, 1, 12, 30, 0⟩ = none :=
  ⟨(EPG_get_current_program_spec noonEPG "bbc" ⟨2024, 5, 1, 12, 30, 0⟩).2.1 noonProgram
      (by decide),
    (EPG_get_current_program_spec noonEPG "zzz" ⟨2024, 5, 1, 12, 30, 0⟩).2.2.1 (by decide)⟩

/-- Witness for `EPG_get_upcoming_programs_spec`: instantiates it on `tieEPG`,
discharging its hypotheses at concrete inputs. -/
theorem EPG_get_upcoming_programs_spec_witness :
    tieEPG.get_upcoming_programs "zzz" ⟨2024, 5, 1, 9, 0, 0⟩ 5 = [] ∧
    (tieEPG.get_upcoming_programs "c" ⟨2024, 5, 1, 9, 0, 0⟩ 5).Perm
      ((EPGData.mk "c" [tieProgramA, tieProgramB]).programs.filter
        (fun p => PyDateTime.ltb ⟨2024, 5, 1, 9, 0, 0⟩ p.start_time)) :=
  ⟨(EPG_get_upcoming_programs_spec tieEPG "zzz" ⟨2024, 5, 1, 9, 0, 0⟩ 5).1 (by decide),
    ((EPG_get_upcoming_programs_spec tieEPG "c" ⟨2024, 5, 1, 9, 0, 0⟩ 5).2
      (EPGData.mk "c" [tieProgramA, tieProgramB]) (by decide)).2.2.2.1 (by decide)⟩

/-! ### `src/models/playlist.py` — `Channel` and `Playlist` -/

/-- The `Channel` dataclass of `src/models/playlist.py`. `channel_number`
defaults to 0 and the code only distinguishes `== 0` from `> 0`, so it is
modelled as a natural number. -/
structure Channel where
  name : String
  url : String
  group : String := ""
  logo : String := ""
  epg_id : String := ""
  channel_number : Nat := 0
  time_shift : Int := 0
  id : Option Int := none
  deriving DecidableEq, Repr

/-- `channel.group or "Uncategorized"`: the category bucket a channel
belongs to (the empty string is falsy in Python). -/
def groupKey (c : Channel) : String :=
  if c.group = "" then "Uncategorized" else c.group

/-- The `Playlist` class of `src/models/playlist.py` (the string metadata
fields `source_path`, `source_hash`, `name`, `last_updated` play no role in
any claim and are omitted). `_categories_set` is Python's `set`, modelled
as a duplicate-free list. -/
structure Playlist where
  channels : List Channel := []
  _categories : List (String × List Channel) := []
  _categories_set : List String := []
  _url_index : List (String × Channel) := []
  _name_index : List (String × List Channel) := []
  deriving DecidableEq, Repr

/-- The index-updating statements shared verbatim by `Playlist.add_channel`
and the loop body of `Playlist._rebuild_indexes`: file the channel into its
category bucket (creating it if needed), overwrite `_url_index[url]`, and
append to `_name_index[name]` (creating it if needed). -/
def Playlist.indexAdd (pl : Playlist) (channel : Channel) : Playlist :=
  let category := groupKey channel
  let cats :=
    if (dget pl._categories category).isSome then pl._categories
    else dset pl._categories category []
  let names :=
    if (dget pl._name_index channel.name).isSome then pl._name_index
    else dset pl._name_index channel.name []
  { pl with
    _categories := dmodify cats category (fun l => l ++ [channel]),
    _categories_set :=
      if category ∈ pl._categories_set then pl._categories_set
      else pl._categories_set ++ [category],
    _url_index := dset pl._url_index channel.url channel,
    _name_index := dmodify names channel.name (fun l => l ++ [channel]) }

/-- `Playlist.add_channel`: append to `channels` and update every index. -/
def Playlist.add_channel (pl : Playlist) (channel : Channel) : Playlist :=
  Playlist.indexAdd { pl with channels := pl.channels ++ [channel] } channel

/-- `Playlist._rebuild_indexes`: clear all four indexes and re-file every
channel of `channels` in order. -/
def Playlist._rebuild_indexes (pl : Playlist) : Playlist :=
  pl.channels.foldl Playlist.indexAdd
    { pl with _categories := [], _categories_set := [], _url_index := [], _name_index := [] }

/-- `Playlist.clear`. -/
def Playlist.clear (_pl : Playlist) : Playlist :=
  { channels := [], _categories := [], _categories_set := [],
    _url_index := [], _name_index := [] }

/-- `Playlist.merge`: `add_channel` every channel of the other playlist. -/
def Playlist.merge (pl other : Playlist) : Playlist :=
  other.channels.foldl Playlist.add_channel pl

/-- `Playlist.get_channel_by_url`: `self._url_index.get(url)`. -/
def Playlist.get_channel_by_url (pl : Playlist) (url : String) : Option Channel :=
  dget pl._url_index url

/-- Python `str.lower()` (the repository's channel data is ASCII after
sanitization; non-ASCII letters are left unchanged by this model). -/
def pyLower (s : String) : String :=
  ⟨s.data.map Char.toLower⟩

/-- Code points of a lowered string, the comparison key Python uses for a
case-insensitive lexicographic string compare. -/
def lowerKey (s : String) : List Nat :=
  (pyLower s).data.map Char.toNat

/-- The sort key `(x.channel_number == 0, x.channel_number, x.name.lower())`
of the `channel_number` branch of `Playlist.sort_channels`, flattened into
one lexicographic list (False < True becomes 0 < 1). -/
def Channel.sortKeyNumber (c : Channel) : List Nat :=
  (if c.channel_number = 0 then 1 else 0) :: c.channel_number :: lowerKey c.name

/-- The sort key of the generic branch of `Playlist.sort_channels`:
`getattr(x, key, "").lower()` for string attributes, the number itself for
`channel_number`, and the default `""` for unknown keys. -/
def Channel.getattrKey (key : String) (c : Channel) : List Nat :=
  if key = "name" then lowerKey c.name
  else if key = "group" then lowerKey c.group
  else if key = "channel_number" then [c.channel_number]
  else []

/-- `a` sorts no later than `b` under key function `f` (ascending). -/
def keyLe (f : Channel → List Nat) (a b : Channel) : Prop :=
  natListLe (f a) (f b)

/-- `a` sorts no later than `b` under key function `f` with `reverse=True`
(descending). -/
def keyGe (f : Channel → List Nat) (a b : Channel) : Prop :=
  natListLe (f b) (f a)

instance (f : Channel → List Nat) : DecidableRel (keyLe f) :=
  fun _ _ => inferInstanceAs (Decidable (natListCompare _ _ ≠ .gt))

instance (f : Channel → List Nat) : DecidableRel (keyGe f) :=
  fun _ _ => inferInstanceAs (Decidable (natListCompare _ _ ≠ .gt))

instance (f : Channel → List Nat) : IsTotal Channel (keyLe f) :=
  ⟨fun _ _ => natListLe_total _ _⟩

instance (f : Channel → List Nat) : IsTotal Channel (keyGe f) :=
  ⟨fun _ _ => (natListLe_total _ _).symm⟩

instance (f : Channel → List Nat) : IsTrans Channel (keyLe f) :=
  ⟨fun _ _ _ => natListLe_trans⟩

instance (f : Channel → List Nat) : IsTrans Channel (keyGe f) :=
  ⟨fun _ _ _ h₁ h₂ => natListLe_trans h₂ h₁⟩

/-- CPython's `list.sort(key=f, reverse=rev)`: a stable sort; `reverse=True`
reverses the comparison but keeps the original order of equal keys, which is
exactly a stable sort under the flipped relation. -/
def pySortByKey (f : Channel → List Nat) (reverse : Bool) (l : List Channel) :
    List Channel :=
  if reverse then l.insertionSort (keyGe f) else l.insertionSort (keyLe f)

/-- `Playlist.sort_channels`: the special `channel_number` branch fires only
when the key is `"channel_number"` AND at least one channel has a positive
number; otherwise the generic attribute branch runs. Afterwards all indexes
are rebuilt. -/
def Playlist.sort_channels (pl : Playlist) (key : String := "name")
    (reverse : Bool := false) : Playlist :=
  let sorted :=
    if key = "channel_number" ∧ pl.channels.any (fun c => decide (0 < c.channel_number)) then
      pySortByKey Channel.sortKeyNumber reverse pl.channels
    else
      pySortByKey (Channel.getattrKey key) reverse pl.channels
  Playlist._rebuild_indexes { pl with channels := sorted }

/-! ### Association-list lemmas -/

section DictLemmas

variable {K V : Type} [DecidableEq K]

theorem dget_dset_self (d : List (K × V)) (k : K) (v : V) :
    dget (dset d k v) k = some v := by
  induction d with
  | nil => simp [dget, dset]
  | cons kv rest ih =>
    obtain ⟨k', v'⟩ := kv
    by_cases h : k' = k
    · simp [dget, dset, h]
    · simp [dget, dset, h, ih]

theorem dget_dset_ne (d : List (K × V)) (k k' : K) (v : V) (h : k' ≠ k) :
    dget (dset d k v) k' = dget d k' := by
  induction d with
  | nil => simp [dget, dset, Ne.symm h]
  | cons kv rest ih =>
    obtain ⟨k₀, v₀⟩ := kv
    by_cases h₀ : k₀ = k
    · subst h₀
      simp [dget, dset, Ne.symm h]
    · by_cases h₁ : k₀ = k'
      · simp [dget, dset, h₀, h₁, h]
      · simp [dget, dset, h₀, h₁, ih]

theorem dget_dmodify_self (d : List (K × V)) (k : K) (f : V → V) :
    dget (dmodify d k f) k = (dget d k).map f := by
  induction d with
  | nil => simp [dget, dmodify]
  | cons kv rest ih =>
    obtain ⟨k₀, v₀⟩ := kv
    by_cases h : k₀ = k
    · simp [dget, dmodify, h]
    · simp [dget, dmodify, h, ih]

theorem dget_dmodify_ne (d : List (K × V)) (k k' : K) (f : V → V) (h : k' ≠ k) :
    dget (dmodify d k f) k' = dget d k' := by
  induction d with
  | nil => simp [dget, dmodify]
  | cons kv rest ih =>
    obtain ⟨k₀, v₀⟩ := kv
    by_cases h₀ : k₀ = k
    · subst h₀
      simp [dget, dmodify, Ne.symm h]
    · by_cases h₁ : k₀ = k'
      · simp [dget, dmodify, h₀, h₁, h]
      · simp [dget, dmodify, h₀, h₁, ih]

theorem keys_dset_sub (d : List (K × V)) (k : K) (v : V) {x : K}
    (hx : x ∈ (dset d k v).map Prod.fst) : x = k ∨ x ∈ d.map Prod.fst := by
  induction d with
  | nil => simpa [dset] using hx
  | cons kv rest ih =>
    obtain ⟨k₀, v₀⟩ := kv
    by_cases h₀ : k₀ = k
    · subst h₀
      have hd : dset ((k₀, v₀) :: rest) k₀ v = (k₀, v) :: rest := by simp [dset]
      rw [hd] at hx
      simp only [List.map_cons, List.mem_cons] at hx ⊢
      tauto
    · have hd : dset ((k₀, v₀) :: rest) k v = (k₀, v₀) :: dset rest k v := by
        simp [dset, h₀]
      rw [hd] at hx
      simp only [List.map_cons, List.mem_cons] at hx ⊢
      rcases hx with h1 | h1
      · exact Or.inr (Or.inl h1)
      · rcases ih h1 with h2 | h2
        · exact Or.inl h2
        · exact Or.inr (Or.inr h2)

theorem dset_keys_nodup (d : List (K × V)) (k : K) (v : V)
    (h : (d.map Prod.fst).Nodup) : ((dset d k v).map Prod.fst).Nodup := by
  induction d with
  | nil => simp [dset]
  | cons kv rest ih =>
    obtain ⟨k₀, v₀⟩ := kv
    simp only [List.map_cons, List.nodup_cons] at h
    by_cases h₀ : k₀ = k
    · subst h₀
      simpa [dset, List.nodup_cons] using h
    · have hmem : k₀ ∉ ((dset rest k v).map Prod.fst) := by
        intro hm
        rcases keys_dset_sub rest k v hm with hm' | hm'
        · exact h₀ hm'
        · exact h.1 hm'
      simp only [dset, if_neg h₀, List.map_cons, List.nodup_cons]
      exact ⟨hmem, ih h.2⟩

theorem dget_none_of_not_mem_keys {d : List (K × V)} {k : K}
    (h : k ∉ d.map Prod.fst) : dget d k = none := by
  induction d with
  | nil => rfl
  | cons kv rest ih =>
    obtain ⟨k₀, v₀⟩ := kv
    simp only [List.map_cons, List.mem_cons] at h
    push_neg at h
    simp [dget, Ne.symm h.1, ih h.2]

theorem countP_keys_eq_zero {d : List (K × V)} {k : K}
    (h : k ∉ d.map Prod.fst) : d.countP (fun kv => decide (kv.1 = k)) = 0 := by
  induction d with
  | nil => rfl
  | cons kv rest ih =>
    obtain ⟨k₀, v₀⟩ := kv
    simp only [List.map_cons, List.mem_cons] at h
    push_neg at h
    rw [List.countP_cons]
    simp [Ne.symm h.1, ih h.2]

theorem countP_dset_eq_one (d : List (K × V)) (k : K) (v : V)
    (h : (d.map Prod.fst).Nodup) :
    (dset d k v).countP (fun kv => decide (kv.1 = k)) = 1 := by
  induction d with
  | nil => simp [dset, List.countP_cons]
  | cons kv rest ih =>
    obtain ⟨k₀, v₀⟩ := kv
    simp only [List.map_cons, List.nodup_cons] at h
    by_cases h₀ : k₀ = k
    · subst h₀
      have hd : dset ((k₀, v₀) :: rest) k₀ v = (k₀, v) :: rest := by
        simp [dset]
      rw [hd, List.countP_cons]
      simp [countP_keys_eq_zero h.1]
    · have hd : dset ((k₀, v₀) :: rest) k v = (k₀, v₀) :: dset rest k v := by
        simp [dset, h₀]
      rw [hd, List.countP_cons]
      simp [h₀, ih h.2]

end DictLemmas

/-! ### The category/URL index invariant (C4) -/

/-- Invariant tying the category buckets and the URL index to a set
`covered` of channels: buckets hold only channels of their own group key,
every covered channel is in its group's bucket, every URL entry stores a
channel whose `url` equals its key, every covered channel has an entry
under its URL, and URL keys are unique. -/
def Playlist.IdxInv (pl : Playlist) (covered : List Channel) : Prop :=
  (∀ k l, dget pl._categories k = some l → ∀ c ∈ l, groupKey c = k) ∧
  (∀ c ∈ covered, ∃ l, dget pl._categories (groupKey c) = some l ∧ c ∈ l) ∧
  (∀ k c', dget pl._url_index k = some c' → c'.url = k) ∧
  (∀ c ∈ covered, (dget pl._url_index c.url).isSome = true) ∧
  (pl._url_index.map Prod.fst).Nodup

theorem Playlist.indexAdd_channels (pl : Playlist) (c : Channel) :
    (pl.indexAdd c).channels = pl.channels := rfl

theorem Playlist.indexAdd_inv {pl : Playlist} {cov : List Channel} (c : Channel)
    (h : pl.IdxInv cov) : (pl.indexAdd c).IdxInv (cov ++ [c]) := by
  obtain ⟨hpure, hcover, hurlwf, hurlcov, hnodup⟩ := h
  have hcats_pure : ∀ k l,
      dget (if (dget pl._categories (groupKey c)).isSome then pl._categories
            else dset pl._categories (groupKey c) []) k = some l →
      ∀ x ∈ l, groupKey x = k := by
    intro k l hkl x hx
    by_cases hc : (dget pl._categories (groupKey c)).isSome
    · rw [if_pos hc] at hkl; exact hpure k l hkl x hx
    · rw [if_neg hc] at hkl
      by_cases hk : k = groupKey c
      · subst hk
        rw [dget_dset_self] at hkl
        injection hkl with hkl
        subst hkl
        cases hx
      · rw [dget_dset_ne _ _ _ _ hk] at hkl
        exact hpure k l hkl x hx
  have hcats_some :
      (dget (if (dget pl._categories (groupKey c)).isSome then pl._categories
             else dset pl._categories (groupKey c) []) (groupKey c)).isSome = true := by
    by_cases hc : (dget pl._categories (groupKey c)).isSome
    · rw [if_pos hc]; exact hc
    · rw [if_neg hc, dget_dset_self]; rfl
  have hcats_old : ∀ k, k ≠ groupKey c →
      dget (if (dget pl._categories (groupKey c)).isSome then pl._categories
            else dset pl._categories (groupKey c) []) k = dget pl._categories k := by
    intro k hk
    by_cases hc : (dget pl._categories (groupKey c)).isSome
    · rw [if_pos hc]
    · rw [if_neg hc, dget_dset_ne _ _ _ _ hk]
  simp only [Playlist.indexAdd]
  refine ⟨?_, ?_, ?_, ?_, ?_⟩
  · intro k l hkl x hx
    by_cases hk : k = groupKey c
    · subst hk
      rw [dget_dmodify_self] at hkl
      rcases ho : dget (if (dget pl._categories (groupKey c)).isSome then pl._categories
          else dset pl._categories (groupKey c) []) (groupKey c) with _ | l₀
      · rw [ho] at hkl; cases hkl
      · rw [ho] at hkl
        injection hkl with hl
        subst hl
        rcases List.mem_append.mp hx with hx' | hx'
        · exact hcats_pure _ _ ho x hx'
        · obtain rfl := List.mem_singleton.mp hx'
          rfl
    · rw [dget_dmodify_ne _ _ _ _ hk] at hkl
      exact hcats_pure k l hkl x hx
  · intro x hx
    rcases List.mem_append.mp hx with hx' | hx'
    · obtain ⟨l, hl, hxl⟩ := hcover x hx'
      by_cases hk : groupKey x = groupKey c
      · rw [hk]
        rw [hk] at hl
        have hc : (dget pl._categories (groupKey c)).isSome := by rw [hl]; rfl
        rw [dget_dmodify_self, if_pos hc, hl]
        exact ⟨l ++ [c], rfl, List.mem_append.mpr (Or.inl hxl)⟩
      · rw [dget_dmodify_ne _ _ _ _ hk, hcats_old _ hk]
        exact ⟨l, hl, hxl⟩
    · obtain rfl := List.mem_singleton.mp hx'
      rw [dget_dmodify_self]
      rcases ho : dget (if (dget pl._categories (groupKey x)).isSome then pl._categories
          else dset pl._categories (groupKey x) []) (groupKey x) with _ | l₀
      · rw [ho] at hcats_some; cases hcats_some
      · exact ⟨l₀ ++ [x], rfl, List.mem_append.mpr (Or.inr (List.mem_singleton.mpr rfl))⟩
  · intro k c' hk
    by_cases hke : k = c.url
    · subst hke
      rw [dget_dset_self] at hk
      injection hk with hk
      subst hk
      rfl
    · rw [dget_dset_ne _ _ _ _ hke] at hk
      exact hurlwf k c' hk
  · intro x hx
    rcases List.mem_append.mp hx with hx' | hx'
    · by_cases hke : x.url = c.url
      · rw [hke, dget_dset_self]; rfl
      · rw [dget_dset_ne _ _ _ _ hke]
        exact hurlcov x hx'
    · obtain rfl := List.mem_singleton.mp hx'
      rw [dget_dset_self]; rfl
  · exact dset_keys_nodup pl._url_index c.url c hnodup

/-- The playlist operations quantified over by claim C4; `mergeOp cs`
merges a playlist whose channel list is `cs` (merge reads nothing else). -/
inductive PlaylistOp
  | add (c : Channel)
  | mergeOp (cs : List Channel)
  | sortOp (key : String) (reverse : Bool)
  | clearOp

/-- Apply one playlist operation. -/
def PlaylistOp.apply (pl : Playlist) : PlaylistOp → Playlist
  | .add c => pl.add_channel c
  | .mergeOp cs => pl.merge { channels := cs }
  | .sortOp key reverse => pl.sort_channels key reverse
  | .clearOp => pl.clear

/-- Run a sequence of operations starting from the empty playlist. -/
def runOps (ops : List PlaylistOp) : Playlist :=
  ops.foldl PlaylistOp.apply {}

/-- The invariant instantiated to the playlist's own channel list. -/
def Playlist.SInv (pl : Playlist) : Prop := pl.IdxInv pl.channels

theorem Playlist.add_channel_sinv {pl : Playlist} (c : Channel) (h : pl.SInv) :
    (pl.add_channel c).SInv := by
  have hch : (pl.add_channel c).channels = pl.channels ++ [c] := rfl
  unfold Playlist.SInv at *
  rw [hch]
  exact Playlist.indexAdd_inv c h

theorem Playlist.foldl_indexAdd_inv :
    ∀ (l : List Channel) (pl : Playlist) (cov : List Channel),
      pl.IdxInv cov → (l.foldl Playlist.indexAdd pl).IdxInv (cov ++ l)
  | [], pl, cov, h => by simpa using h
  | c :: l, pl, cov, h => by
    have hrec := Playlist.foldl_indexAdd_inv l (pl.indexAdd c) (cov ++ [c])
      (Playlist.indexAdd_inv c h)
    simpa [List.append_assoc] using hrec

theorem Playlist.foldl_indexAdd_channels :
    ∀ (l : List Channel) (pl : Playlist),
      (l.foldl Playlist.indexAdd pl).channels = pl.channels
  | [], _ => rfl
  | c :: l, pl => by
    rw [List.foldl_cons, Playlist.foldl_indexAdd_channels l, Playlist.indexAdd_channels]

theorem Playlist.rebuild_sinv (pl : Playlist) : (Playlist._rebuild_indexes pl).SInv := by
  unfold Playlist.SInv Playlist._rebuild_indexes
  rw [Playlist.foldl_indexAdd_channels]
  have hempty : Playlist.IdxInv
      { pl with
        _categories := [], _categories_set := [], _url_index := [], _name_index := [] }
      [] := by
    refine ⟨?_, ?_, ?_, ?_, ?_⟩ <;> simp [dget]
  have hfold := Playlist.foldl_indexAdd_inv pl.channels _ [] hempty
  simpa using hfold

theorem Playlist.foldl_add_channel_sinv :
    ∀ (cs : List Channel) (pl : Playlist), pl.SInv → (cs.foldl Playlist.add_channel pl).SInv
  | [], _, h => h
  | c :: cs, _pl, h =>
    Playlist.foldl_add_channel_sinv cs _ (Playlist.add_channel_sinv c h)

theorem Playlist.empty_sinv : (({} : Playlist)).SInv := by
  refine ⟨?_, ?_, ?_, ?_, ?_⟩ <;> simp [dget]

theorem Playlist.clear_sinv (pl : Playlist) : pl.clear.SInv := by
  refine ⟨?_, ?_, ?_, ?_, ?_⟩ <;> simp [dget, Playlist.clear]

theorem runOps_sinv (ops : List PlaylistOp) : (runOps ops).SInv := by
  suffices h : ∀ (ops : List PlaylistOp) (pl : Playlist),
      pl.SInv → (ops.foldl PlaylistOp.apply pl).SInv by
    exact h ops {} Playlist.empty_sinv
  intro ops
  induction ops with
  | nil => intro _pl h; exact h
  | cons op ops ih =>
    intro pl h
    rw [List.foldl_cons]
    refine ih _ ?_
    cases op with
    | add c => exact Playlist.add_channel_sinv c h
    | mergeOp cs => exact Playlist.foldl_add_channel_sinv cs pl h
    | sortOp key reverse => exact Playlist.rebuild_sinv _
    | clearOp => exact Playlist.clear_sinv pl

/-- **C4.** After any sequence of `add_channel`, `merge`, `sort_channels`
and `clear` operations, every channel in `channels` sits in its own group's
bucket (the literal "Uncategorized" when `group` is empty), in no other
bucket, and the URL index has an entry under the channel's URL holding a
channel with that same URL (Python's `Channel.__eq__` compares URLs only;
with duplicate URLs the stored entry is the last-added channel, see C5). -/
theorem playlist_index_invariant (ops : List PlaylistOp) (c : Channel)
    (hc : c ∈ (runOps ops).channels) :
    (∃ l, dget (runOps ops)._categories (groupKey c) = some l ∧ c ∈ l) ∧
    (∀ k l, dget (runOps ops)._categories k = some l → c ∈ l → k = groupKey c) ∧
    (∃ c', dget (runOps ops)._url_index c.url = some c' ∧ c'.url = c.url) := by
  obtain ⟨hpure, hcover, hurlwf, hurlcov, hnodup⟩ := runOps_sinv ops
  refine ⟨hcover c hc, ?_, ?_⟩
  · intro k l hkl hcl
    exact (hpure k l hkl c hcl).symm
  · have h1 := hurlcov c hc
    rcases ho : dget (runOps ops)._url_index c.url with _ | c'
    · rw [ho] at h1; cases h1
    · exact ⟨c', rfl, hurlwf _ _ ho⟩

/-- Operation sequence for the C4 witness: an add, a merge and a sort. -/
def c4ops : List PlaylistOp :=
  [.add ⟨"Ch B", "http://b", "News", "", "", 0, 0, none⟩,
   .mergeOp [⟨"Ch A", "http://a", "", "", "", 0, 0, none⟩],
   .sortOp "name" false]

/-- The channel tracked by the C4 witness (it has an empty group, so it
must land in the "Uncategorized" bucket). -/
def c4chan : Channel := ⟨"Ch A", "http://a", "", "", "", 0, 0, none⟩

/-- Witness for `playlist_index_invariant`, at a concrete op sequence. -/
theorem playlist_index_invariant_witness :
    (∃ l, dget (runOps c4ops)._categories (groupKey c4chan) = some l ∧ c4chan ∈ l) ∧
    (∀ k l, dget (runOps c4ops)._categories k = some l → c4chan ∈ l → k = groupKey c4chan) ∧
    (∃ c', dget (runOps c4ops)._url_index c4chan.url = some c' ∧ c'.url = c4chan.url) :=
  playlist_index_invariant c4ops c4chan (by
    have h : (runOps c4ops).channels =
        [c4chan, ⟨"Ch B", "http://b", "News", "", "", 0, 0, none⟩] := by decide
    rw [h]
    exact List.mem_cons_self _ _)

/-- **C5.** Adding two channels with the same URL leaves both in `channels`
but exactly one entry in the URL index, holding the second channel
(last write wins). -/
theorem playlist_add_channel_duplicate_url (pl : Playlist) (c₁ c₂ : Channel)
    (hurl : c₁.url = c₂.url) (hnodup : (pl._url_index.map Prod.fst).Nodup) :
    ((pl.add_channel c₁).add_channel c₂).channels = pl.channels ++ [c₁, c₂] ∧
    dget ((pl.add_channel c₁).add_channel c₂)._url_index c₁.url = some c₂ ∧
    ((pl.add_channel c₁).add_channel c₂)._url_index.countP
      (fun kv => decide (kv.1 = c₁.url)) = 1 := by
  have hui : ((pl.add_channel c₁).add_channel c₂)._url_index =
      dset (dset pl._url_index c₁.url c₁) c₂.url c₂ := rfl
  refine ⟨?_, ?_, ?_⟩
  · show (pl.channels ++ [c₁]) ++ [c₂] = pl.channels ++ [c₁, c₂]
    simp
  · rw [hui, hurl, dget_dset_self]
  · rw [hui, hurl]
    exact countP_dset_eq_one _ _ _ (dset_keys_nodup _ _ _ hnodup)

/-- First channel of the C5 duplicate-URL scenario. -/
def dupA : Channel := ⟨"Name One", "http://dup", "", "", "", 0, 0, none⟩

/-- Second channel of the C5 duplicate-URL scenario: same URL, new name. -/
def dupB : Channel := ⟨"Name Two", "http://dup", "", "", "", 0, 0, none⟩

/-- Witness for `playlist_add_channel_duplicate_url` on an empty playlist. -/
theorem playlist_add_channel_duplicate_url_witness :
    ((Playlist.add_channel (Playlist.add_channel {} dupA) dupB).channels =
      ({} : Playlist).channels ++ [dupA, dupB]) ∧
    dget (Playlist.add_channel (Playlist.add_channel {} dupA) dupB)._url_index dupA.url =
      some dupB ∧
    (Playlist.add_channel (Playlist.add_channel {} dupA) dupB)._url_index.countP
      (fun kv => decide (kv.1 = dupA.url)) = 1 :=
  playlist_add_channel_duplicate_url {} dupA dupB (by decide) (by decide)

/-! ### C7 — `Playlist.sort_channels` -/

theorem natListCompare_cons_same (x : Nat) (a b : List Nat) :
    natListCompare (x :: a) (x :: b) = natListCompare a b := by
  simp [natListCompare, (Nat.compare_eq_eq).mpr rfl]

theorem natListCompare_cons_gt {x y : Nat} (h : y < x) (a b : List Nat) :
    natListCompare (x :: a) (y :: b) = .gt := by
  simp [natListCompare, (Nat.compare_eq_gt).mpr h]

/-- A stable sort leaves a list unchanged when every pair of its elements is
related (all sort keys equal, for instance). -/
theorem insertionSort_eq_self_of_all_rel {α : Type} {r : α → α → Prop} [DecidableRel r] :
    ∀ (l : List α), (∀ a b, a ∈ l → b ∈ l → r a b) → l.insertionSort r = l
  | [], _ => rfl
  | a :: l, h => by
    rw [List.insertionSort,
      insertionSort_eq_self_of_all_rel l
        (fun x y hx hy => h x y (List.mem_cons_of_mem a hx) (List.mem_cons_of_mem a hy))]
    cases l with
    | nil => rfl
    | cons b l' =>
      rw [List.orderedInsert,
        if_pos (h a b (List.mem_cons_self a _) (List.mem_cons_of_mem a (List.mem_cons_self b _)))]

/-- The channel list after `sort_channels`, branch by branch. -/
theorem Playlist.sort_channels_channels (pl : Playlist) (key : String) (reverse : Bool) :
    (pl.sort_channels key reverse).channels =
      if key = "channel_number" ∧ pl.channels.any (fun c => decide (0 < c.channel_number)) then
        pySortByKey Channel.sortKeyNumber reverse pl.channels
      else pySortByKey (Channel.getattrKey key) reverse pl.channels := by
  show (Playlist._rebuild_indexes _).channels = _
  unfold Playlist._rebuild_indexes
  rw [Playlist.foldl_indexAdd_channels]

/-- **C7, counterexample.** Two defects of the claim at concrete inputs:
with every channel number equal to 0 the code takes the generic numeric
branch and does *not* break ties by name (names stay in insertion order
"b", "a" instead of the claimed "a", "b"); and with `reverse=True` the
zero-numbered channel sorts *before* the positively numbered one, not
after. -/
theorem playlist_sort_channels_counterexample :
    ((Playlist.add_channel (Playlist.add_channel {}
        ⟨"b", "http://1", "", "", "", 0, 0, none⟩)
        ⟨"a", "http://2", "", "", "", 0, 0, none⟩).sort_channels
        "channel_number" false).channels.map Channel.name = ["b", "a"] ∧
    ((Playlist.add_channel (Playlist.add_channel {}
        ⟨"num", "http://3", "", "", "", 1, 0, none⟩)
        ⟨"zero", "http://4", "", "", "", 0, 0, none⟩).sort_channels
        "channel_number" true).channels.map Channel.name = ["zero", "num"] := by
  refine ⟨by decide, by decide⟩

/-- **C7 (amended).** `sort_channels` with key `channel_number` sorts by the
tuple `(number == 0, number, lowercased name)` — zeros after positives,
ties broken case-insensitively by name — only when at least one channel has
a positive number and `reverse` is false (`reverse=True` flips the order;
when every number is 0 the generic branch runs and the numeric sort is a
stable no-op with no name tiebreak). Keys `name` and `group` sort
case-insensitively lexicographically. Every sort rebuilds all indexes from
the permuted channel list. -/
theorem playlist_sort_channels_spec (pl : Playlist) :
    ((∃ c ∈ pl.channels, 0 < c.channel_number) →
      (pl.sort_channels "channel_number" false).channels.Perm pl.channels ∧
      List.Sorted (keyLe Channel.sortKeyNumber)
        (pl.sort_channels "channel_number" false).channels ∧
      List.Pairwise (fun a b => ¬(a.channel_number = 0 ∧ 0 < b.channel_number))
        (pl.sort_channels "channel_number" false).channels ∧
      List.Pairwise (fun a b => a.channel_number = b.channel_number →
          natListLe (lowerKey a.name) (lowerKey b.name))
        (pl.sort_channels "channel_number" false).channels ∧
      List.Sorted (keyGe Channel.sortKeyNumber)
        (pl.sort_channels "channel_number" true).channels) ∧
    ((∀ c ∈ pl.channels, c.channel_number = 0) →
      (pl.sort_channels "channel_number" false).channels = pl.channels) ∧
    ((pl.sort_channels "name" false).channels.Perm pl.channels ∧
      List.Sorted (keyLe (Channel.getattrKey "name"))
        (pl.sort_channels "name" false).channels) ∧
    ((pl.sort_channels "group" false).channels.Perm pl.channels ∧
      List.Sorted (keyLe (Channel.getattrKey "group"))
        (pl.sort_channels "group" false).channels) ∧
    (∀ key reverse, ∃ sorted : List Channel, sorted.Perm pl.channels ∧
      pl.sort_channels key reverse =
        Playlist._rebuild_indexes { pl with channels := sorted }) := by
  have hgen : ∀ key reverse, ¬(key = "channel_number" ∧
      pl.channels.any (fun c => decide (0 < c.channel_number)) = true) →
      (pl.sort_channels key reverse).channels =
        pySortByKey (Channel.getattrKey key) reverse pl.channels := by
    intro key reverse h
    rw [Playlist.sort_channels_channels, if_neg h]
  have hnum : ∀ reverse, (∃ c ∈ pl.channels, 0 < c.channel_number) →
      (pl.sort_channels "channel_number" reverse).channels =
        pySortByKey Channel.sortKeyNumber reverse pl.channels := by
    intro reverse h
    rw [Playlist.sort_channels_channels, if_pos]
    refine ⟨rfl, ?_⟩
    rw [List.any_eq_true]
    obtain ⟨c, hc, hpos⟩ := h
    exact ⟨c, hc, by simpa using hpos⟩
  refine ⟨?_, ?_, ?_, ?_, ?_⟩
  · intro hpos
    have h0 := hnum false hpos
    have h1 := hnum true hpos
    have hsorted : List.Sorted (keyLe Channel.sortKeyNumber)
        (pl.sort_channels "channel_number" false).channels := by
      rw [h0]
      exact List.sorted_insertionSort _ _
    refine ⟨?_, hsorted, ?_, ?_, ?_⟩
    · rw [h0]
      exact List.perm_insertionSort _ _
    · refine hsorted.imp ?_
      intro a b hab ⟨ha0, hb0⟩
      unfold keyLe natListLe Channel.sortKeyNumber at hab
      rw [ha0, if_pos rfl, if_neg (Nat.pos_iff_ne_zero.mp hb0)] at hab
      exact hab (natListCompare_cons_gt (by decide) _ _)
    · refine hsorted.imp ?_
      intro a b hab heq
      unfold keyLe natListLe Channel.sortKeyNumber at hab
      rw [heq] at hab
      rwa [natListCompare_cons_same, natListCompare_cons_same] at hab
    · rw [h1]
      exact List.sorted_insertionSort _ _
  · intro hzero
    have hno : ¬("channel_number" = "channel_number" ∧
        pl.channels.any (fun c => decide (0 < c.channel_number)) = true) := by
      rintro ⟨-, hany⟩
      rw [List.any_eq_true] at hany
      obtain ⟨c, hc, hpos⟩ := hany
      rw [hzero c hc] at hpos
      simp at hpos
    rw [hgen _ false hno]
    unfold pySortByKey
    simp only [if_neg Bool.false_ne_true]
    refine insertionSort_eq_self_of_all_rel pl.channels ?_
    intro a b ha hb
    unfold keyLe natListLe
    have hka : Channel.getattrKey "channel_number" a = [a.channel_number] := rfl
    have hkb : Channel.getattrKey "channel_number" b = [b.channel_number] := rfl
    rw [hka, hkb, hzero a ha, hzero b hb]
    simp [natListCompare, Nat.compare_eq_eq.mpr rfl]
  · have hno : ¬("name" = "channel_number" ∧
        pl.channels.any (fun c => decide (0 < c.channel_number)) = true) := by
      rintro ⟨h, -⟩; exact absurd h (by decide)
    rw [hgen _ false hno]
    exact ⟨List.perm_insertionSort _ _, List.sorted_insertionSort _ _⟩
  · have hno : ¬("group" = "channel_number" ∧
        pl.channels.any (fun c => decide (0 < c.channel_number)) = true) := by
      rintro ⟨h, -⟩; exact absurd h (by decide)
    rw [hgen _ false hno]
    exact ⟨List.perm_insertionSort _ _, List.sorted_insertionSort _ _⟩
  · intro key reverse
    refine ⟨(pl.sort_channels key reverse).channels, ?_, ?_⟩
    · rw [Playlist.sort_channels_channels]
      split
      · unfold pySortByKey
        split <;> exact List.perm_insertionSort _ _
      · unfold pySortByKey
        split <;> exact List.perm_insertionSort _ _
    · conv_rhs => rw [Playlist.sort_channels_channels]
      rfl

/-- Playlist with one positively numbered and one zero-numbered channel. -/
def mixedNumP : Playlist :=
  Playlist.add_channel (Playlist.add_channel {} ⟨"num", "http://3", "", "", "", 1, 0, none⟩)
    ⟨"zero", "http://4", "", "", "", 0, 0, none⟩

/-- Playlist whose channels all have channel number 0. -/
def zeroNumP : Playlist :=
  Playlist.add_channel (Playlist.add_channel {} ⟨"b", "http://1", "", "", "", 0, 0, none⟩)
    ⟨"a", "http://2", "", "", "", 0, 0, none⟩

/-- Witness for `playlist_sort_channels_spec` at concrete playlists. -/
theorem playlist_sort_channels_spec_witness :
    (mixedNumP.sort_channels "channel_number" false).channels.Perm mixedNumP.channels ∧
    (zeroNumP.sort_channels "channel_number" false).channels = zeroNumP.channels :=
  ⟨((playlist_sort_channels_spec mixedNumP).1 (by decide)).1,
    (playlist_sort_channels_spec zeroNumP).2.1 (by decide)⟩

/-! ### `src/controllers/epg_controller.py` — `EPGController` -/

/-- The state of `EPGController`: the loaded EPG (or `None`) and
`channel_map`, a dict keyed by `channel.id` (an `Optional[int]`) holding
EPG ids. -/
structure EPGController where
  epg : Option EPG := none
  channel_map : List (Option Int × String) := []
  deriving Repr

/-- `EPGController.map_channel_to_epg`. Returns the new state and the list
of warnings logged: with no EPG loaded, or with an `epg_id` that is not a
key of the EPG store, the call warns and leaves the state unchanged;
otherwise it stores `channel_map[channel.id] = epg_id` (success logs only a
debug line, modelled as no warning). -/
def EPGController.map_channel_to_epg (ctl : EPGController) (channel : Channel)
    (epg_id : String) : EPGController × List String :=
  match ctl.epg with
  | none => (ctl, ["No EPG loaded, cannot map channel"])
  | some epg =>
    if epg_id ∈ epg.channels then
      ({ ctl with channel_map := dset ctl.channel_map channel.id epg_id }, [])
    else
      (ctl, ["EPG ID not found in EPG data"])

/-- `EPGController.get_epg_id_for_channel`: `self.channel_map.get(channel.id)`. -/
def EPGController.get_epg_id_for_channel (ctl : EPGController) (channel : Channel) :
    Option String :=
  dget ctl.channel_map channel.id

/-- The per-channel loop of `EPGController.auto_map_channels` as written in
`src/controllers/epg_controller.py` lines 100-118. The first statement of
the loop body evaluates `channel.tvg_id` — but the `Channel` class this
controller imports (`from models.playlist import Channel`) has no `tvg_id`
attribute (its EPG id field is named `epg_id`, and no class in the
repository defines `tvg_id`), so in Python the attribute access raises
`AttributeError` as soon as the first channel is processed, before any of
the three matching rules can run. -/
def autoMapLoop (st : List (Option Int × String)) (count : Nat) :
    List Channel → Except String (List (Option Int × String) × Nat)
  | [] => .ok (st, count)
  | _ :: _ => .error "AttributeError: Channel object has no attribute tvg_id"

/-- `EPGController.auto_map_channels`: 0 with a warning when no EPG is
loaded, else the per-channel matching loop (which in this code base raises
`AttributeError` on the first channel, see `autoMapLoop`). -/
def EPGController.auto_map_channels (ctl : EPGController) (channels : List Channel) :
    Except String (EPGController × Nat) :=
  match ctl.epg with
  | none => .ok (ctl, 0)
  | some _ =>
    match autoMapLoop ctl.channel_map 0 channels with
    | .error e => .error e
    | .ok (st, count) => .ok ({ ctl with channel_map := st }, count)

/-- The claim's normalization: lowercase and strip all spaces. -/
def normalizeName (s : String) : String :=
  ⟨(pyLower s).data.filter (fun c => !(c == ' '))⟩

/-- The C1 scenario channel: empty `epg_id`, name "BBC One". -/
def bbcChannel : Channel := { name := "BBC One", url := "http://bbc" }

/-- The C1 scenario EPG store, holding the key "bbc one". -/
def bbcEPG : EPG := EPG.add_program {} "bbc one" noonProgram

/-- The C1 scenario controller, with `bbcEPG` loaded. -/
def bbcController : EPGController := { epg := some bbcEPG }

/-- **C1 (code bug).** On the specification's own scenario — a channel with
empty `epg_id` and name "BBC One" against a store containing the key
"bbc one" — `auto_map_channels` raises `AttributeError` instead of mapping
the channel and returning 1: the loop reads the non-existent attribute
`channel.tvg_id` (the field is `epg_id`). The normalized-match rule the
spec describes *would* fire: lowercasing and stripping spaces makes the
two names equal, as the last conjunct shows. -/
theorem auto_map_channels_attribute_error :
    bbcController.auto_map_channels [bbcChannel] =
      .error "AttributeError: Channel object has no attribute tvg_id" ∧
    "bbc one" ∈ bbcEPG.channels ∧
    bbcChannel.epg_id = "" ∧
    normalizeName bbcChannel.name = normalizeName "bbc one" := by
  refine ⟨rfl, by decide, rfl, by decide⟩

/-- **C6.** With an EPG loaded, `map_channel_to_epg` with an `epg_id` that
is not a key of the store is a no-op that emits a warning; with a known
`epg_id` it records the association, `get_epg_id_for_channel` then returns
it, and no warning is emitted. -/
theorem map_channel_to_epg_spec (ctl : EPGController) (channel : Channel)
    (epg_id : String) (epg : EPG) (hepg : ctl.epg = some epg) :
    (epg_id ∉ epg.channels →
      (ctl.map_channel_to_epg channel epg_id).1 = ctl ∧
      (ctl.map_channel_to_epg channel epg_id).2 ≠ []) ∧
    (epg_id ∈ epg.channels →
      ((ctl.map_channel_to_epg channel epg_id).1).get_epg_id_for_channel channel =
        some epg_id ∧
      (ctl.map_channel_to_epg channel epg_id).2 = []) := by
  constructor
  · intro hmem
    rw [EPGController.map_channel_to_epg, hepg]
    simp only [if_neg hmem]
    exact ⟨by simp, by simp⟩
  · intro hmem
    rw [EPGController.map_channel_to_epg, hepg]
    simp only [if_pos hmem]
    refine ⟨?_, by simp⟩
    show dget (dset ctl.channel_map channel.id epg_id) channel.id = some epg_id
    exact dget_dset_self _ _ _

/-- Witness for `map_channel_to_epg_spec` on the concrete `bbcController`. -/
theorem map_channel_to_epg_spec_witness :
    ((bbcController.map_channel_to_epg bbcChannel "nope").1 = bbcController ∧
      (bbcController.map_channel_to_epg bbcChannel "nope").2 ≠ []) ∧
    (((bbcController.map_channel_to_epg bbcChannel "bbc one").1).get_epg_id_for_channel
        bbcChannel = some "bbc one" ∧
      (bbcController.map_channel_to_epg bbcChannel "bbc one").2 = []) :=
  ⟨(map_channel_to_epg_spec bbcController bbcChannel "nope" bbcEPG rfl).1 (by decide),
    (map_channel_to_epg_spec bbcController bbcChannel "bbc one" bbcEPG rfl).2 (by decide)⟩

/-! ### `src/utils/epg_parser.py` — `EPGParser.parse_date`

`parse_date` calls `datetime.strptime` with `"%Y%m%d%H%M%S"` and, on
failure, `"%Y%m%d%H%M"`. CPython's `_strptime` compiles each directive to a
regular expression fragment — `%Y` to four digits and the two-digit fields
to ordered alternations that also accept a single digit (`%m` is
`1[0-2]|0[1-9]|[1-9]`, `%d` is `3[01]|[12]\d|0[1-9]|[1-9]`, `%H` is
`2[0-3]|[0-1]\d|\d`, `%M` is `[0-5]\d|\d`, `%S` is `6[0-1]|[0-5]\d|\d`) —
matches with leftmost-first backtracking, and raises `ValueError` unless
the first match found consumes the whole string. The model below
reproduces that search order exactly. -/

/-- One regex alternative: a sequence of inclusive character ranges. -/
def matchAlt : List (Char × Char) → List Char → Option (List Char × List Char)
  | [], s => some ([], s)
  | _ :: _, [] => none
  | (lo, hi) :: ps, c :: cs =>
    if lo ≤ c ∧ c ≤ hi then
      match matchAlt ps cs with
      | some (m, rest) => some (c :: m, rest)
      | none => none
    else none

/-- Digit characters to a number. -/
def charDigits (cs : List Char) : Nat :=
  cs.foldl (fun acc c => acc * 10 + (c.toNat - 48)) 0

/-- Leftmost-first backtracking match of a sequence of fields, each an
ordered list of alternatives, exactly as the regex engine searches: the
first complete assignment found in depth-first order is returned (the
remainder of the string need not be empty). -/
def matchSeq : List (List (List (Char × Char))) → List Char →
    Option (List Nat × List Char)
  | [], s => some ([], s)
  | f :: fs, s =>
    f.findSome? (fun alt =>
      match matchAlt alt s with
      | none => none
      | some (chars, rest) =>
        match matchSeq fs rest with
        | some (vals, rest') => some (charDigits chars :: vals, rest')
        | none => none)

/-- `%Y`: exactly four digits. -/
def fieldY : List (List (Char × Char)) := [[('0', '9'), ('0', '9'), ('0', '9'), ('0', '9')]]

/-- `%m`: `1[0-2]|0[1-9]|[1-9]`. -/
def fieldm : List (List (Char × Char)) :=
  [[('1', '1'), ('0', '2')], [('0', '0'), ('1', '9')], [('1', '9')]]

/-- `%d`: `3[01]|[12]\d|0[1-9]|[1-9]`. -/
def fieldd : List (List (Char × Char)) :=
  [[('3', '3'), ('0', '1')], [('1', '2'), ('0', '9')], [('0', '0'), ('1', '9')], [('1', '9')]]

/-- `%H`: `2[0-3]|[0-1]\d|\d`. -/
def fieldH : List (List (Char × Char)) :=
  [[('2', '2'), ('0', '3')], [('0', '1'), ('0', '9')], [('0', '9')]]

/-- `%M`: `[0-5]\d|\d`. -/
def fieldM : List (List (Char × Char)) :=
  [[('0', '5'), ('0', '9')], [('0', '9')]]

/-- `%S`: `6[0-1]|[0-5]\d|\d`. -/
def fieldS : List (List (Char × Char)) :=
  [[('6', '6'), ('0', '1')], [('0', '5'), ('0', '9')], [('0', '9')]]

/-- Whether year `y` is a Gregorian leap year. -/
def isLeapYear (y : Nat) : Bool :=
  y % 4 = 0 && (y % 100 ≠ 0 || y % 400 = 0)

/-- Number of days in a month, as `datetime` validates it. -/
def daysInMonth (y m : Nat) : Nat :=
  if m = 2 then (if isLeapYear y then 29 else 28)
  else if m = 4 || m = 6 || m = 9 || m = 11 then 30
  else 31

/-- The `datetime(...)` constructor's validation: `ValueError` (here `none`)
outside the documented field ranges. -/
def mkDatetime (y m d hh mi ss : Nat) : Option PyDateTime :=
  if 1 ≤ y ∧ y ≤ 9999 ∧ 1 ≤ m ∧ m ≤ 12 ∧ 1 ≤ d ∧ d ≤ daysInMonth y m ∧
      hh ≤ 23 ∧ mi ≤ 59 ∧ ss ≤ 59 then
    some ⟨y, m, d, hh, mi, ss⟩
  else none

/-- `datetime.strptime(s, "%Y%m%d%H%M%S")`. -/
def pyStrptimeYmdHMS (s : List Char) : Option PyDateTime :=
  match matchSeq [fieldY, fieldm, fieldd, fieldH, fieldM, fieldS] s with
  | some (y :: m :: d :: hh :: mi :: ss :: [], rest) =>
    if rest.isEmpty then mkDatetime y m d hh mi ss else none
  | _ => none

/-- `datetime.strptime(s, "%Y%m%d%H%M")` (seconds default to 0). -/
def pyStrptimeYmdHM (s : List Char) : Option PyDateTime :=
  match matchSeq [fieldY, fieldm, fieldd, fieldH, fieldM] s with
  | some (y :: m :: d :: hh :: mi :: [], rest) =>
    if rest.isEmpty then mkDatetime y m d hh mi 0 else none
  | _ => none

/-- `s.split(c)[0]`: the prefix before the first occurrence of `c`. -/
def splitHead (c : Char) (s : List Char) : List Char :=
  s.takeWhile (fun x => !(x == c))

namespace EPGParser

/-- `EPGParser.parse_date`: truncate at the first `+`, then at the first
`-`, remove every space and capital `T`, then try
`strptime("%Y%m%d%H%M%S")` and fall back to `strptime("%Y%m%d%H%M")`;
raise `ValueError` when both fail. -/
def parse_date (date_str : String) : Except String PyDateTime :=
  let s1 := splitHead '+' date_str.data
  let s2 := splitHead '-' s1
  let s3 := s2.filter (fun c => !(c == ' ' || c == 'T'))
  match pyStrptimeYmdHMS s3 with
  | some dt => .ok dt
  | none =>
    match pyStrptimeYmdHM s3 with
    | some dt => .ok dt
    | none => .error "Unsupported date format"

end EPGParser

/-- A `<programme>` element as `EPGParser.parse` reads it: the `channel`
attribute (`""` models a missing/falsy one), the `start`/`stop` attribute
strings, and the optional `title`/`desc`/`category` child texts. -/
structure ProgrammeElem where
  channel : String := ""
  start : String := ""
  stop : String := ""
  title : Option String := none
  desc : Option String := none
  category : Option String := none
  deriving DecidableEq, Repr

/-- The programme loop of `EPGParser.parse`: skip elements with a falsy
`channel`; parse both dates, and on `ValueError` skip just that programme
(logging a warning); otherwise add the program to the EPG. -/
def EPGParser.parseProgrammes (progs : List ProgrammeElem) : EPG :=
  progs.foldl
    (fun epg pr =>
      if pr.channel = "" then epg
      else
        match EPGParser.parse_date pr.start, EPGParser.parse_date pr.stop with
        | .ok st, .ok en =>
          epg.add_program pr.channel
            { title := pr.title.getD "No Title", start_time := st, end_time := en,
              description := pr.desc.getD "", category := pr.category.getD "" }
        | _, _ => epg)
    {}

/-- **C9 (code bug).** A date string in the documented `YYYYMMDDHHMM`
format is *not* decoded as the digits encode it: for "202401011159" the
claim (and the code's own fallback branch for `%Y%m%d%H%M`) means
2024-01-01 11:59:00, but CPython's lenient `%Y%m%d%H%M%S` regex already
matches the 12-digit string — backtracking shortens the minute field to one
digit — producing 2024-01-01 11:05:09. Well-formed 14-digit strings, with
or without a timezone offset, do parse as encoded; an unparseable string
raises ValueError and only that programme is skipped, the rest of the
document still parses. -/
theorem parse_date_minute_misparse :
    EPGParser.parse_date "202401011159" = .ok ⟨2024, 1, 1, 11, 5, 9⟩ ∧
    EPGParser.parse_date "20240501120000" = .ok ⟨2024, 5, 1, 12, 0, 0⟩ ∧
    EPGParser.parse_date "20240501120000 +0100" = .ok ⟨2024, 5, 1, 12, 0, 0⟩ ∧
    EPGParser.parse_date "20240501120000 -0500" = .ok ⟨2024, 5, 1, 12, 0, 0⟩ ∧
    EPGParser.parse_date "not-a-date" = .error "Unsupported date format" ∧
    EPGParser.parseProgrammes
      [{ channel := "c1", start := "20240501120000", stop := "20240501130000" },
       { channel := "c1", start := "badstart", stop := "20240501140000" },
       { channel := "c2", start := "20240501150000", stop := "20240501160000" }] =
    EPGParser.parseProgrammes
      [{ channel := "c1", start := "20240501120000", stop := "20240501130000" },
       { channel := "c2", start := "20240501150000", stop := "20240501160000" }] := by
  exact ⟨rfl, rfl, rfl, rfl, rfl, by decide⟩

/-! ### `src/utils/m3u_parser.py` — `M3UParser`

Bytes are lists of naturals below 256; decoded text is a list of `Char`.
The parser-side `Channel` class (`src/models/channel.py`) is `MChannel`
here because the playlist model above already uses the name `Channel`. -/

/-- The `Channel` dataclass of `src/models/channel.py` (fields `name`,
`url`, `group`, `logo`, `epg_id`, `id`), the type `M3UParser` constructs. -/
structure MChannel where
  name : String
  url : String
  group : String := ""
  logo : String := ""
  epg_id : String := ""
  id : Option Int := none
  deriving DecidableEq, Repr

/-- `pat` is a prefix of `s` (Python `str.startswith` / bytes prefix). -/
def lstartswith {α : Type} [BEq α] : List α → List α → Bool
  | [], _ => true
  | _ :: _, [] => false
  | p :: ps, c :: cs => p == c && lstartswith ps cs

/-- `pat` occurs as a contiguous substring of `s` (Python `in`). -/
def lcontains {α : Type} [BEq α] (pat : List α) : List α → Bool
  | [] => pat.isEmpty
  | c :: cs => lstartswith pat (c :: cs) || lcontains pat cs

/-- Python `str.isspace` characters (the ones `str.strip` removes). -/
def isPySpace (c : Char) : Bool :=
  [9, 10, 11, 12, 13, 28, 29, 30, 32, 0x85, 0xA0, 0x1680, 0x2000, 0x2001, 0x2002,
    0x2003, 0x2004, 0x2005, 0x2006, 0x2007, 0x2008, 0x2009, 0x200A, 0x2028, 0x2029,
    0x202F, 0x205F, 0x3000].contains c.toNat

/-- Python `str.strip()`: drop whitespace from both ends. -/
def pyStrip (s : List Char) : List Char :=
  ((s.dropWhile isPySpace).reverse.dropWhile isPySpace).reverse

/-- The line-boundary characters of Python `str.splitlines`. -/
def isLineBreak (c : Char) : Bool :=
  [10, 11, 12, 13, 28, 29, 30, 0x85, 0x2028, 0x2029].contains c.toNat

/-- Worker for `pySplitlines`: `acc` is the current line, reversed. -/
def pySplitlinesAux : List Char → List Char → List (List Char)
  | [], acc => if acc.isEmpty then [] else [acc.reverse]
  | '\r' :: '\n' :: cs, acc => acc.reverse :: pySplitlinesAux cs []
  | c :: cs, acc =>
    if c = '\r' then acc.reverse :: pySplitlinesAux cs []
    else if isLineBreak c then acc.reverse :: pySplitlinesAux cs []
    else pySplitlinesAux cs (c :: acc)

/-- Python `str.splitlines()`: split at line boundaries (`\r\n` counts as
one), no trailing empty line for a trailing newline. -/
def pySplitlines (s : List Char) : List (List Char) :=
  pySplitlinesAux s []

/-! #### Codecs -/

/-- Strict UTF-8 decoding (Python `bytes.decode("utf-8")`): rejects
truncated sequences, overlong encodings, surrogates and values beyond
U+10FFFF. -/
def utf8Decode : List Nat → Option (List Char)
  | [] => some []
  | b :: bs =>
    if b < 0x80 then (utf8Decode bs).map (Char.ofNat b :: ·)
    else if b < 0xC2 then none
    else if b < 0xE0 then
      match bs with
      | b1 :: rest =>
        if 0x80 ≤ b1 ∧ b1 < 0xC0 then
          (utf8Decode rest).map (Char.ofNat ((b - 0xC0) * 64 + (b1 - 0x80)) :: ·)
        else none
      | _ => none
    else if b < 0xF0 then
      match bs with
      | b1 :: b2 :: rest =>
        if 0x80 ≤ b1 ∧ b1 < 0xC0 ∧ 0x80 ≤ b2 ∧ b2 < 0xC0 then
          let cp := (b - 0xE0) * 4096 + (b1 - 0x80) * 64 + (b2 - 0x80)
          if cp < 0x800 ∨ (0xD800 ≤ cp ∧ cp ≤ 0xDFFF) then none
          else (utf8Decode rest).map (Char.ofNat cp :: ·)
        else none
      | _ => none
    else if b < 0xF5 then
      match bs with
      | b1 :: b2 :: b3 :: rest =>
        if 0x80 ≤ b1 ∧ b1 < 0xC0 ∧ 0x80 ≤ b2 ∧ b2 < 0xC0 ∧ 0x80 ≤ b3 ∧ b3 < 0xC0 then
          let cp := (b - 0xF0) * 262144 + (b1 - 0x80) * 4096 + (b2 - 0x80) * 64 + (b3 - 0x80)
          if cp < 0x10000 ∨ 0x10FFFF < cp then none
          else (utf8Decode rest).map (Char.ofNat cp :: ·)
        else none
      | _ => none
    else none

/-- Python `"utf-8-sig"`: strip one UTF-8 BOM if present, then UTF-8. -/
def utf8SigDecode (bs : List Nat) : Option (List Char) :=
  match bs with
  | 0xEF :: 0xBB :: 0xBF :: rest => utf8Decode rest
  | _ => utf8Decode bs

/-- Python `"latin1"`: every byte maps to the same code point. -/
def latin1Decode (bs : List Nat) : Option (List Char) :=
  some (bs.map Char.ofNat)

/-- One byte of Python `"cp1252"`: `none` for the five unassigned bytes. -/
def cp1252Byte (b : Nat) : Option Nat :=
  if b < 0x80 ∨ 0xA0 ≤ b then some b
  else if b = 0x80 then some 0x20AC
  else if b = 0x82 then some 0x201A
  else if b = 0x83 then some 0x0192
  else if b = 0x84 then some 0x201E
  else if b = 0x85 then some 0x2026
  else if b = 0x86 then some 0x2020
  else if b = 0x87 then some 0x2021
  else if b = 0x88 then some 0x02C6
  else if b = 0x89 then some 0x2030
  else if b = 0x8A then some 0x0160
  else if b = 0x8B then some 0x2039
  else if b = 0x8C then some 0x0152
  else if b = 0x8E then some 0x017D
  else if b = 0x91 then some 0x2018
  else if b = 0x92 then some 0x2019
  else if b = 0x93 then some 0x201C
  else if b = 0x94 then some 0x201D
  else if b = 0x95 then some 0x2022
  else if b = 0x96 then some 0x2013
  else if b = 0x97 then some 0x2014
  else if b = 0x98 then some 0x02DC
  else if b = 0x99 then some 0x2122
  else if b = 0x9A then some 0x0161
  else if b = 0x9B then some 0x203A
  else if b = 0x9C then some 0x0153
  else if b = 0x9E then some 0x017E
  else if b = 0x9F then some 0x0178
  else none

/-- Python `"cp1252"` decoding. -/
def cp1252Decode : List Nat → Option (List Char)
  | [] => some []
  | b :: bs =>
    match cp1252Byte b with
    | none => none
    | some cp => (cp1252Decode bs).map (Char.ofNat cp :: ·)

/-- The four codec names `M3UParser.parse` tries. -/
inductive PyEncoding
  | utf8
  | utf8sig
  | latin1
  | cp1252
  deriving DecidableEq, Repr

/-- Dispatch a codec. -/
def pyDecode : PyEncoding → List Nat → Option (List Char)
  | .utf8, bs => utf8Decode bs
  | .utf8sig, bs => utf8SigDecode bs
  | .latin1, bs => latin1Decode bs
  | .cp1252, bs => cp1252Decode bs

/-! #### The `EXTINF_REGEX` match

The pattern is
`#EXTINF:-1(?:[^"]*?tvg-id="([^"]*)")?(?:[^"]*?tvg-name="([^"]*)")?`
`(?:[^"]*?group-title="([^"]*)")?(?:[^"]*?tvg-logo="([^"]*)")?,\s*(.*?)$`,
matched with `re.match` (anchored at the start). Each optional group
`(?:[^"]*?attr=")?` can match in at most one way — the lazy `[^"]*?` may
not cross a quote, and `attr="` itself ends in the first quote it reaches —
so the regex engine either consumes up to and including the first quote
(when the text before it ends in `attr=`), captures `[^"]*` up to a
closing quote, and moves on, or leaves the group unmatched; on failure of
the rest of the pattern it backtracks to the unmatched choice. The tail
`,\s*(.*?)$` needs a literal comma immediately after the groups, then
captures the remainder of the line after any whitespace run. -/

/-- One optional attribute group: the unique way `(?:[^"]*?attr=")?` can
consume input, returning the capture and the rest, or `none` when the
group cannot match here. `attr` is the literal before the quote, e.g.
`tvg-id=`. -/
def tryAttr (attr : List Char) (rest : List Char) : Option (List Char × List Char) :=
  let pre := rest.takeWhile (fun c => !(c == '"'))
  if pre.length = rest.length then none
  else
    let q := pre.length
    let marker := attr ++ ['"']
    if marker.length ≤ q + 1 ∧ (rest.take (q + 1)).drop (q + 1 - marker.length) = marker then
      let rest' := rest.drop (q + 1)
      let cap := rest'.takeWhile (fun c => !(c == '"'))
      if cap.length = rest'.length then none
      else some (cap, rest'.drop (cap.length + 1))
    else none

/-- Backtracking match of the four optional groups followed by the
`,\s*(.*?)$` tail, in the regex engine's order: try the group, and if the
rest fails, retry with the group unmatched. -/
def matchOpts : List (List Char) → List Char → Option (List (Option (List Char)) × List Char)
  | [], rest =>
    match rest with
    | ',' :: rest' => some ([], rest'.dropWhile isPySpace)
    | _ => none
  | attr :: attrs, rest =>
    match tryAttr attr rest with
    | some (cap, rest') =>
      match matchOpts attrs rest' with
      | some (caps, nm) => some (some cap :: caps, nm)
      | none =>
        match matchOpts attrs rest with
        | some (caps, nm) => some (none :: caps, nm)
        | none => none
    | none =>
      match matchOpts attrs rest with
      | some (caps, nm) => some (none :: caps, nm)
      | none => none

/-- `M3UParser.EXTINF_REGEX.match(line)`: the five captures
(tvg-id, tvg-name, group-title, tvg-logo, display name). -/
def EXTINF_match (line : List Char) :
    Option (Option (List Char) × Option (List Char) × Option (List Char) ×
      Option (List Char) × List Char) :=
  if lstartswith "#EXTINF:-1".data line then
    match matchOpts ["tvg-id=".data, "tvg-name=".data, "group-title=".data,
        "tvg-logo=".data] (line.drop 10) with
    | some ([g1, g2, g3, g4], nm) => some (g1, g2, g3, g4, nm)
    | _ => none
  else none

/-! #### `_sanitize_text` -/

/-- NFKD normalization, modelled on the characters `_sanitize_text` can
meet in this file's theorems: identity on ASCII and on the characters of
the replacement table (none of which decompose canonically), with the one
compatibility decomposition among them (U+2026 to "..."). -/
def pyNFKD (c : Char) : List Char :=
  if c = Char.ofNat 0x2026 then ['.', '.', '.']
  else [c]

/-- The explicit replacement table of `_sanitize_text`. -/
def sanitizeReplace (c : Char) : List Char :=
  if c = Char.ofNat 0x025B then ['e']
  else if c = Char.ofNat 0x0153 then ['o', 'e']
  else if c = Char.ofNat 0x0152 then ['O', 'E']
  else if c = Char.ofNat 0x2013 ∨ c = Char.ofNat 0x2014 then ['-']
  else if c = Char.ofNat 0x2018 ∨ c = Char.ofNat 0x2019 then [Char.ofNat 39]
  else if c = Char.ofNat 0x201C ∨ c = Char.ofNat 0x201D then [Char.ofNat 34]
  else if c = Char.ofNat 0x2026 then ['.', '.', '.']
  else [c]

/-- `M3UParser._sanitize_text`: NFKD-normalize, apply the replacement
table, drop non-ASCII, strip. -/
def _sanitize_text (s : List Char) : List Char :=
  pyStrip (((s.flatMap pyNFKD).flatMap sanitizeReplace).filter (fun c => c.toNat < 128))

/-! #### `_parse_channels` -/

/-- The `current_channel` dict built from an EXTINF match. -/
structure ExtinfData where
  name : List Char
  group : List Char
  logo : List Char
  epg_id : List Char
  deriving DecidableEq, Repr

/-- The VOD/series skip test:
`any(x in group.lower() for x in ['movie', 'film', 'series', 'vod'])`. -/
def forbiddenGroup (group : List Char) : Bool :=
  ["movie".data, "film".data, "series".data, "vod".data].any
    (fun x => lcontains x (group.map Char.toLower))

/-- Python `s or default` for strings: the default when `s` is empty. -/
def orDefault (s d : List Char) : List Char :=
  if s.isEmpty then d else s

/-- A URL line: `line.startswith(("http://", "https://", "rtmp://", "rtsp://"))`. -/
def isUrlLine (l : List Char) : Bool :=
  lstartswith "http://".data l || lstartswith "https://".data l ||
    lstartswith "rtmp://".data l || lstartswith "rtsp://".data l

/-- The loop of `M3UParser._parse_channels` over the lines, carrying
`current_channel`: EXTINF lines that match the regex replace it (or clear
it, when the sanitized group-title contains "movie"/"film"/"series"/"vod" —
the skipped entry produces nothing); EXTINF lines that fail the regex leave
it untouched; a non-comment line while it is set consumes it, emitting a
channel when the line has a stream scheme; other `#` lines and blank lines
are ignored. -/
def parseChannelsLoop : List (List Char) → Option ExtinfData → List MChannel
  | [], _ => []
  | line :: rest, cur =>
    let l := pyStrip line
    if l.isEmpty then parseChannelsLoop rest cur
    else if lstartswith "#EXTINF".data l then
      match EXTINF_match l with
      | some (g1, g2, g3, g4, g5) =>
        let epg_id := _sanitize_text (g1.getD [])
        let nameRaw :=
          match g2 with
          | some x => if x.isEmpty then g5 else x
          | none => g5
        let name := _sanitize_text nameRaw
        let group := _sanitize_text (g3.getD [])
        let logo := g4.getD []
        if forbiddenGroup group then parseChannelsLoop rest none
        else
          parseChannelsLoop rest (some
            { name := orDefault name "Unnamed Channel".data,
              group := orDefault group "Uncategorized".data,
              logo := logo, epg_id := epg_id })
      | none => parseChannelsLoop rest cur
    else if !(lstartswith "#".data l) then
      match cur with
      | some cc =>
        if isUrlLine l then
          { name := ⟨cc.name⟩, url := ⟨l⟩, group := ⟨cc.group⟩,
            logo := ⟨cc.logo⟩, epg_id := ⟨cc.epg_id⟩ : MChannel }
            :: parseChannelsLoop rest none
        else parseChannelsLoop rest none
      | none => parseChannelsLoop rest cur
    else parseChannelsLoop rest cur

namespace M3UParser

/-- `M3UParser._parse_channels`, started with no pending EXTINF entry. -/
def _parse_channels (lines : List (List Char)) : List MChannel :=
  parseChannelsLoop lines none

/-- The encoding candidate list of `M3UParser.parse`: `utf-8-sig` is
inserted in front (duplicating it) when the raw bytes begin with a BOM. -/
def encodingsFor (raw : List Nat) : List PyEncoding :=
  if lstartswith [0xEF, 0xBB, 0xBF] raw then
    [.utf8sig, .utf8, .utf8sig, .latin1, .cp1252]
  else [.utf8, .utf8sig, .latin1, .cp1252]

/-- The encoding loop of `M3UParser.parse`: the first encoding that
decodes, whose stripped text starts with `#EXTM3U`, whose line list is
non-empty and whose stripped first line starts with `#EXTM3U` wins and its
lines are parsed; every failure falls through to the next encoding, and a
`ValueError` is raised when none is left. -/
def parseLoop (raw : List Nat) : List PyEncoding → Except String (List MChannel)
  | [] => .error "Failed to decode playlist file with any encoding"
  | e :: es =>
    match pyDecode e raw with
    | none => parseLoop raw es
    | some txt =>
      if lstartswith "#EXTM3U".data (pyStrip txt) then
        match pySplitlines txt with
        | [] => parseLoop raw es
        | l0 :: ls =>
          if lstartswith "#EXTM3U".data (pyStrip l0) then
            .ok (_parse_channels (l0 :: ls))
          else parseLoop raw es
      else parseLoop raw es

/-- `M3UParser.parse` on raw bytes. -/
def parse (raw : List Nat) : Except String (List MChannel) :=
  parseLoop raw (encodingsFor raw)

end M3UParser

/-! ### C10 — VOD/series entries are dropped -/

theorem forbiddenGroup_orDefault {g : List Char} (h : forbiddenGroup g = false) :
    forbiddenGroup (orDefault g "Uncategorized".data) = false := by
  unfold orDefault
  split
  · decide
  · exact h

theorem parseChannelsLoop_forbidden :
    ∀ (lines : List (List Char)) (cur : Option ExtinfData),
      (∀ cc, cur = some cc → forbiddenGroup cc.group = false) →
      ∀ ch ∈ parseChannelsLoop lines cur, forbiddenGroup ch.group.data = false := by
  intro lines
  induction lines with
  | nil =>
    intro cur hcur ch hch
    cases hch
  | cons line rest ih =>
    intro cur hcur ch hch
    simp only [parseChannelsLoop] at hch
    split at hch
    · exact ih cur hcur ch hch
    · split at hch
      · split at hch
        · split at hch
          · exact ih none (by rintro cc hcc; cases hcc) ch hch
          · refine ih _ ?_ ch hch
            rintro cc hcc
            injection hcc with hcc
            subst hcc
            refine forbiddenGroup_orDefault ?_
            rename_i hforb
            simpa using hforb
        · exact ih cur hcur ch hch
      · split at hch
        · split at hch
          · split at hch
            · rcases List.mem_cons.mp hch with rfl | hch2
              · rename_i cc hurl
                exact hcur cc rfl
              · exact ih none (by rintro cc2 hcc2; cases hcc2) ch hch2
            · exact ih none (by rintro cc2 hcc2; cases hcc2) ch hch
          · exact ih none (by rintro cc2 hcc2; cases hcc2) ch hch
        · exact ih cur hcur ch hch

/-- **C10.** No channel whose EXTINF entry carried a group-title containing
"movie", "film", "series" or "vod" (case-insensitively) ever reaches the
parse result — such entries are dropped and their URL line is consumed
without effect — and on the concrete scenario with a "Movies" entry
followed by a "News" entry only the "News" channel is produced. -/
theorem m3u_parse_channels_drops_vod_groups :
    (∀ (lines : List (List Char)) (ch : MChannel),
      ch ∈ M3UParser._parse_channels lines → forbiddenGroup ch.group.data = false) ∧
    M3UParser._parse_channels
      (["#EXTM3U",
        "#EXTINF:-1 group-title=\"Movies\",Bad Film",
        "http://bad",
        "#EXTINF:-1 group-title=\"News\",Good",
        "http://good"].map String.data) =
      [{ name := "Good", url := "http://good", group := "News" }] := by
  constructor
  · intro lines ch hch
    exact parseChannelsLoop_forbidden lines none (by rintro cc hcc; cases hcc) ch hch
  · decide

/-- Witness for `m3u_parse_channels_drops_vod_groups`: its universal part
applied to the concrete "Movies"/"News" line list and the one channel the
parse produces. -/
theorem m3u_parse_channels_drops_vod_groups_witness :
    forbiddenGroup (MChannel.group { name := "Good", url := "http://good", group := "News" }).data
      = false :=
  m3u_parse_channels_drops_vod_groups.1
    (["#EXTM3U",
      "#EXTINF:-1 group-title=\"Movies\",Bad Film",
      "http://bad",
      "#EXTINF:-1 group-title=\"News\",Good",
      "http://good"].map String.data)
    { name := "Good", url := "http://good", group := "News" }
    (by rw [m3u_parse_channels_drops_vod_groups.2]; exact List.mem_singleton.mpr rfl)

/-! ### C8 — header validation and encoding fallback of `M3UParser.parse` -/

theorem lstartswith_iff : ∀ {p s : List Char}, lstartswith p s = true ↔ p <+: s
  | [], s => by simp [lstartswith]
  | p :: ps, [] => by
    simp only [lstartswith, Bool.false_eq_true, false_iff]
    intro h
    exact absurd (h.length_le) (by simp)
  | p :: ps, c :: cs => by
    simp only [lstartswith, Bool.and_eq_true, beq_iff_eq, List.cons_prefix_cons]
    rw [lstartswith_iff]

/-- Removing trailing whitespace keeps any whitespace-free non-empty prefix. -/
theorem pat_prefix_stripEnd {pat y : List Char} (hp : pat <+: y) (hne : pat ≠ [])
    (hnosp : ∀ c ∈ pat, isPySpace c = false) :
    pat <+: (y.reverse.dropWhile isPySpace).reverse := by
  obtain ⟨z, rfl⟩ := hp
  rw [List.reverse_append]
  rcases hrev : pat.reverse with _ | ⟨c₀, t⟩
  · exact absurd (by simpa using congrArg List.reverse hrev) hne
  · have hc₀ : isPySpace c₀ = false := by
      refine hnosp c₀ ?_
      have : c₀ ∈ pat.reverse := by rw [hrev]; exact List.mem_cons_self _ _
      simpa using this
    have hdp : (pat.reverse).dropWhile isPySpace = pat.reverse := by
      rw [hrev, List.dropWhile_cons, hc₀]
      simp
    rw [List.dropWhile_append]
    split
    · have hdc : List.dropWhile isPySpace (c₀ :: t) = c₀ :: t := by
        rw [List.dropWhile_cons, hc₀]
        simp
      rw [hdc, ← hrev, List.reverse_reverse]
    · rw [List.reverse_append, ← hrev, List.reverse_reverse]
      exact List.prefix_append _ _

/-- If the stripped first line of `txt` begins with `#EXTM3U`, so does the
stripped whole text: the leading whitespace of `txt` lies inside the first
line, and final stripping never eats into non-whitespace header characters. -/
theorem header_strip_of_firstline {txt : List Char}
    (h : lstartswith "#EXTM3U".data
      (pyStrip (txt.takeWhile (fun c => !isLineBreak c))) = true) :
    lstartswith "#EXTM3U".data (pyStrip txt) = true := by
  set hdr : List Char := "#EXTM3U".data with hhdr
  set l0 := txt.takeWhile (fun c => !isLineBreak c) with hl0
  rw [lstartswith_iff] at h ⊢
  -- the stripped line is a prefix of the front-stripped line
  have hstripEndPre :
      ∀ y : List Char, (y.reverse.dropWhile isPySpace).reverse <+: y := by
    intro y
    have hsfx : y.reverse.dropWhile isPySpace <:+ y.reverse := List.dropWhile_suffix _
    have := List.reverse_prefix.mpr hsfx
    rwa [List.reverse_reverse] at this
  have hf : hdr <+: l0.dropWhile isPySpace :=
    h.trans (hstripEndPre (l0.dropWhile isPySpace))
  have hfne : (l0.dropWhile isPySpace) ≠ [] := by
    intro hempty
    rw [hempty] at hf
    have := hf.length_le
    simp [hhdr] at this
  -- front-stripping the whole text yields the front-stripped line plus the rest
  have hsplit : txt.dropWhile isPySpace =
      l0.dropWhile isPySpace ++ txt.dropWhile (fun c => !isLineBreak c) := by
    conv_lhs => rw [← List.takeWhile_append_dropWhile (fun c => !isLineBreak c) txt]
    rw [List.dropWhile_append]
    split
    · rename_i hemp
      rw [← hl0] at hemp
      exact absurd (by simpa using hemp) hfne
    · rw [← hl0]
  -- assemble
  unfold pyStrip
  refine pat_prefix_stripEnd ?_ (by simp [hhdr]) (by decide)
  rw [hsplit]
  exact hf.trans (List.prefix_append _ _)



theorem pySplitlinesAux_head (s acc : List Char) :
    ∀ (l0 : List Char) (ls : List (List Char)),
      pySplitlinesAux s acc = l0 :: ls →
      l0 = acc.reverse ++ s.takeWhile (fun c => !isLineBreak c) := by
  induction s, acc using pySplitlinesAux.induct with
  | case1 acc h =>
    intro l0 ls hh
    simp only [pySplitlinesAux, h, if_pos] at hh
    cases hh
  | case2 acc h =>
    intro l0 ls hh
    simp only [pySplitlinesAux, h, if_neg] at hh
    injection hh with h1 _
    simp [← h1]
  | case3 cs acc =>
    intro l0 ls hh
    have he : pySplitlinesAux ('\r' :: '\n' :: cs) acc =
        acc.reverse :: pySplitlinesAux cs [] := rfl
    rw [he] at hh
    injection hh with h1 _
    rw [← h1, List.takeWhile_cons]
    simp [show isLineBreak '\r' = true from rfl]
  | case4 tl ac hmiss ih =>
    intro l0 ls hh
    rw [pySplitlinesAux.eq_3 ac '\r' tl hmiss, if_pos rfl] at hh
    injection hh with h1 _
    rw [← h1, List.takeWhile_cons]
    simp [show isLineBreak '\r' = true from rfl]
  | case5 c cs acc hmiss hcr hbrk ih =>
    intro l0 ls hh
    rw [pySplitlinesAux.eq_3 acc c cs hmiss, if_neg hcr, if_pos hbrk] at hh
    injection hh with h1 _
    rw [← h1, List.takeWhile_cons, hbrk]
    simp
  | case6 c cs acc hmiss hcr hbrk ih =>
    intro l0 ls hh
    rw [pySplitlinesAux.eq_3 acc c cs hmiss, if_neg hcr, if_neg hbrk] at hh
    have hb : isLineBreak c = false := by
      rcases hv : isLineBreak c
      · rfl
      · exact absurd hv hbrk
    have hrec := ih l0 ls hh
    rw [hrec, List.takeWhile_cons, hb]
    simp [List.append_assoc]

/-- The first line returned by `pySplitlines`. -/
theorem pySplitlines_head {txt l0 : List Char} {ls : List (List Char)}
    (h : pySplitlines txt = l0 :: ls) :
    l0 = txt.takeWhile (fun c => !isLineBreak c) := by
  have := pySplitlinesAux_head txt [] l0 ls h
  simpa using this

namespace M3UParser

/-- The acceptance test of one encoding, as the amended C8 states it: the
bytes decode and the decoded text's first line, stripped, starts with
`#EXTM3U`. (The code also pre-checks the stripped whole text; that check
passes whenever this one does, see `header_strip_of_firstline`.) -/
def headerLineOk (e : PyEncoding) (raw : List Nat) : Bool :=
  match pyDecode e raw with
  | none => false
  | some txt =>
    match pySplitlines txt with
    | [] => false
    | l0 :: _ => lstartswith "#EXTM3U".data (pyStrip l0)

theorem parseLoop_skip {raw : List Nat} {e : PyEncoding} (es : List PyEncoding)
    (h : headerLineOk e raw = false) :
    parseLoop raw (e :: es) = parseLoop raw es := by
  rw [parseLoop]
  rcases hd : pyDecode e raw with _ | txt
  · rfl
  · simp only [headerLineOk, hd] at h
    simp only []
    split
    · rcases hs : pySplitlines txt with _ | ⟨l0, ls⟩
      · rfl
      · rw [hs] at h
        simp only [] at h
        simp [h]
    · rfl

theorem parseLoop_error {raw : List Nat} :
    ∀ es : List PyEncoding, (∀ e ∈ es, headerLineOk e raw = false) →
      parseLoop raw es = .error "Failed to decode playlist file with any encoding"
  | [], _ => rfl
  | e :: es, h => by
    rw [parseLoop_skip es (h e (List.mem_cons_self _ _))]
    exact parseLoop_error es (fun e' he' => h e' (List.mem_cons_of_mem _ he'))

theorem parseLoop_hit {raw : List Nat} {e : PyEncoding} {txt : List Char}
    (es : List PyEncoding) (hd : pyDecode e raw = some txt)
    (hok : headerLineOk e raw = true) :
    parseLoop raw (e :: es) = .ok (_parse_channels (pySplitlines txt)) := by
  simp only [headerLineOk, hd] at hok
  rcases hs : pySplitlines txt with _ | ⟨l0, ls⟩
  · rw [hs] at hok
    simp only [] at hok
    exact Bool.noConfusion hok
  · rw [hs] at hok
    simp only [] at hok
    have houter : lstartswith "#EXTM3U".data (pyStrip txt) = true := by
      refine header_strip_of_firstline ?_
      rw [← pySplitlines_head hs]
      exact hok
    simp only [parseLoop, hd]
    rw [if_pos houter]
    simp only [hs]
    rw [if_pos hok]

/-- **C8 (amended).** If, under every fallback encoding the code tries, the
bytes fail to decode or the decoded text's first line (after stripping
whitespace) does not begin with `#EXTM3U`, the parse fails with an error —
no partial playlist — and the first encoding in the candidate list that
decodes and passes that header test is the one whose decoded text is
split into lines and parsed. -/
theorem parse_header_spec (raw : List Nat) :
    ((∀ e ∈ encodingsFor raw, headerLineOk e raw = false) →
      parse raw = .error "Failed to decode playlist file with any encoding") ∧
    (∀ (e : PyEncoding) (es₁ es₂ : List PyEncoding) (txt : List Char),
      encodingsFor raw = es₁ ++ e :: es₂ →
      (∀ e' ∈ es₁, headerLineOk e' raw = false) →
      pyDecode e raw = some txt →
      headerLineOk e raw = true →
      parse raw = .ok (_parse_channels (pySplitlines txt))) := by
  constructor
  · intro h
    exact parseLoop_error _ h
  · intro e es₁ es₂ txt hsplit hskip hd hok
    rw [parse, hsplit]
    clear hsplit
    induction es₁ with
    | nil => exact parseLoop_hit es₂ hd hok
    | cons e' es₁ ih =>
      rw [List.cons_append, parseLoop_skip _ (hskip e' (List.mem_cons_self _ _))]
      exact ih (fun x hx => hskip x (List.mem_cons_of_mem _ hx))

end M3UParser

/-- Raw bytes whose decoded text begins with two spaces before `#EXTM3U`. -/
def c8raw : List Nat := "  #EXTM3U\n#EXTINF:-1,A\nhttp://a\n".data.map Char.toNat

/-- **C8, counterexample.** Under every fallback encoding these bytes
decode to text that does *not* begin with `#EXTM3U` (it begins with two
spaces) — the claim then demands a failure with zero channels — yet the
parse succeeds and returns one channel, because the code checks
`decoded.strip().startswith("#EXTM3U")`, tolerating surrounding
whitespace. -/
theorem m3u_parse_header_counterexample :
    (∀ e ∈ M3UParser.encodingsFor c8raw,
      (pyDecode e c8raw).map (fun t => lstartswith "#EXTM3U".data t) = some false) ∧
    M3UParser.parse c8raw =
      .ok [{ name := "A", url := "http://a", group := "Uncategorized" }] := by
  exact ⟨by decide, rfl⟩

/-- Witness for `M3UParser.parse_header_spec`: the failure branch on bytes
with no header anywhere, and the success branch on a well-formed playlist
picked up by the first encoding. -/
theorem parse_header_spec_witness :
    M3UParser.parse ("hello".data.map Char.toNat) =
      .error "Failed to decode playlist file with any encoding" ∧
    M3UParser.parse ("#EXTM3U\n#EXTINF:-1,A\nhttp://a".data.map Char.toNat) =
      .ok (M3UParser._parse_channels (pySplitlines "#EXTM3U\n#EXTINF:-1,A\nhttp://a".data)) :=
  ⟨(M3UParser.parse_header_spec _).1 (by decide),
    (M3UParser.parse_header_spec _).2 .utf8 [] [.utf8sig, .latin1, .cp1252]
      "#EXTM3U\n#EXTINF:-1,A\nhttp://a".data rfl
      (by intro x hx; exact absurd hx (List.not_mem_nil x)) rfl (by decide)⟩
